import Mathlib

/-!
Verification of the prompt-usage resolver of the 3cx-prompt-finder repository.

The core of the program is the function `gather_prompt_usages` in
`src/main.py` (lines 19-89): given a Python set of known prompt filenames
and six JSON-shaped collections (receptionists, queues, groups,
music-on-hold settings, conference settings, call-parking settings), it
builds a dict mapping each referenced filename to the ordered list of
human-readable usage descriptions, dropping filenames with no usages.

The source operates on dynamically typed values produced by
`orjson.loads`, so the embedding works over a `Json` value type and
models the exact Python operations the source performs: attribute-style
`dict.get` with defaults, `for` iteration, truthiness, the `x or {}`
idiom, and membership of a value in a set of strings (which raises
`TypeError` on unhashable values).  Operations that raise in Python are
embedded in `Except String`; a Python exception is an `Except.error`.
JSON numbers are modelled as integers (no claim involves numeric
fields).
-/

namespace PromptFinder

/-- Json values as produced by `orjson.loads` in `src/main.py`.  Objects
are association lists with string keys (the shape `orjson` produces);
key uniqueness is not assumed by the embedding, lookups take the first
binding like a Python dict holds a single binding per key. -/
inductive Json where
  | null
  | bool (b : Bool)
  | num (n : Int)
  | str (s : String)
  | arr (items : List Json)
  | obj (fields : List (String × Json))

/-- Python truthiness of a value: `None`, `False`, `0`, `""`, `[]` and
`\x7b\x7d` are falsy, everything else truthy. -/
def truthy : Json → Bool
  | .null => false
  | .bool b => b
  | .num n => n != 0
  | .str s => !s.isEmpty
  | .arr xs => !xs.isEmpty
  | .obj kvs => !kvs.isEmpty

/-- Python `v or d`: the left operand when truthy, otherwise the right.
Mirrors the pervasive `(collection or ...)` idiom of `src/main.py`. -/
def pyOr (v d : Json) : Json := if truthy v then v else d

/-- Python `v.get(key, dflt)`: on a dict, the value bound to the key
(first binding) or the default when the key is absent; on any other
value, `AttributeError`. -/
def pyGet (v : Json) (key : String) (dflt : Json) : Except String Json :=
  match v with
  | .obj kvs => .ok ((kvs.lookup key).getD dflt)
  | _ => .error "AttributeError: object has no attribute get"

/-- Python `for x in v`: a list iterates its elements, a string its
one-character substrings, a dict its keys; other values raise
`TypeError`. -/
def pyIter : Json → Except String (List Json)
  | .arr xs => .ok xs
  | .str s => .ok (s.toList.map (fun c => Json.str (String.mk [c])))
  | .obj kvs => .ok (kvs.map (fun kv => Json.str kv.1))
  | .null => .error "TypeError: object is not iterable"
  | .bool _ => .error "TypeError: object is not iterable"
  | .num _ => .error "TypeError: object is not iterable"

/-- Python `v.items()` on a dict; `AttributeError` on anything else. -/
def pyItems : Json → Except String (List (String × Json))
  | .obj kvs => .ok kvs
  | _ => .error "AttributeError: object has no attribute items"

mutual

/-- Python `repr` of a Json value (s.t. `str` falls back to it for
non-string values); string quoting simplified to bare quotes. -/
def pyRepr : Json → String
  | .null => "None"
  | .bool b => if b then "True" else "False"
  | .num n => toString n
  | .str s => "\x27" ++ s ++ "\x27"
  | .arr xs => "[" ++ pyReprItems xs ++ "]"
  | .obj kvs => "\x7b" ++ pyReprFields kvs ++ "\x7d"

/-- Comma-separated reprs of the elements of a list. -/
def pyReprItems : List Json → String
  | [] => ""
  | [x] => pyRepr x
  | x :: y :: rest => pyRepr x ++ ", " ++ pyReprItems (y :: rest)

/-- Comma-separated `key: value` reprs of the bindings of a dict. -/
def pyReprFields : List (String × Json) → String
  | [] => ""
  | [(k, v)] => "\x27" ++ k ++ "\x27: " ++ pyRepr v
  | (k, v) :: y :: rest => "\x27" ++ k ++ "\x27: " ++ pyRepr v ++ ", " ++ pyReprFields (y :: rest)

end

/-- Python `str(v)` as used by the f-strings of `src/main.py`: a string
formats as itself, anything else as its repr. -/
def pyStr (v : Json) : String :=
  match v with
  | .str s => s
  | _ => pyRepr v

/-- Python `v and v in known` where `known` is a set of strings, as in
the guards `if filename and filename in prompt_filenames` of
`src/main.py` (lines 39, 44, 54, 60, 69, 74, 79, 84), returning the
matched string.  A falsy value short-circuits to no match; a truthy
unhashable value (list or dict) raises `TypeError` from the membership
test; other truthy non-strings are hashable but never members of a set
of strings. -/
def knownStr (v : Json) (known : List String) : Except String (Option String) :=
  if truthy v then
    match v with
    | .str t => .ok (if known.contains t then some t else none)
    | .arr _ => .error "TypeError: unhashable type: list"
    | .obj _ => .error "TypeError: unhashable type: dict"
    | _ => .ok none
  else .ok none

/-- Usage dict of `gather_prompt_usages`: filename keys in set-iteration
order, each with its ordered list of usage description strings. -/
abbrev UsageMap := List (String × List String)

/-- Helper `add` of `src/main.py` (lines 32-34): append a description to
the filename entry when the filename is a key of the dict, otherwise do
nothing.  Appending to every matching binding coincides with the Python
dict update since a dict holds one binding per key. -/
def add (usages : UsageMap) (fn : String) (text : String) : UsageMap :=
  usages.map (fun kv => if kv.1 = fn then (kv.1, kv.2 ++ [text]) else kv)

/-- Formatting `f"... 3cx entity ..."` tail `item.get('Number')`,
`item.get('Name')` shared by the description strings of `src/main.py`
(lines 40, 45, 55, 61, 70). -/
def numberName (item : Json) : Except String String :=
  match pyGet item "Number" .null with
  | .error e => .error e
  | .ok number =>
    match pyGet item "Name" .null with
    | .error e => .error e
    | .ok name => .ok (pyStr number ++ " " ++ pyStr name)

/-- Loop `for forward in item.get("Forwards", [])` of `src/main.py`
(lines 42-45): record each forward whose `CustomData` is a known
filename. -/
def scanForwards (known : List String) (item : Json) (usages : UsageMap) :
    List Json → Except String UsageMap
  | [] => .ok usages
  | forward :: rest =>
    match pyGet forward "CustomData" .null with
    | .error e => .error e
    | .ok custom_data =>
      match knownStr custom_data known with
      | .error e => .error e
      | .ok none => scanForwards known item usages rest
      | .ok (some fn) =>
        match numberName item with
        | .error e => .error e
        | .ok nn =>
          scanForwards known item
            (add usages fn ("Receptionist (forward key): " ++ nn)) rest

/-- Loop `for item in (receptionists or \x7b\x7d).get("value", [])` of
`src/main.py` (lines 37-45): the direct `PromptFilename` field, then the
`Forwards` sub-records. -/
def scanReceptionists (known : List String) (usages : UsageMap) :
    List Json → Except String UsageMap
  | [] => .ok usages
  | item :: rest =>
    match pyGet item "PromptFilename" .null with
    | .error e => .error e
    | .ok filename =>
      match knownStr filename known with
      | .error e => .error e
      | .ok o =>
        let step :=
          match o with
          | none => Except.ok usages
          | some fn =>
            match numberName item with
            | .error e => Except.error e
            | .ok nn => Except.ok (add usages fn ("Receptionist: " ++ nn))
        match step with
        | .error e => .error e
        | .ok usages1 =>
          match pyGet item "Forwards" (.arr []) with
          | .error e => .error e
          | .ok fwdsJ =>
            match pyIter fwdsJ with
            | .error e => .error e
            | .ok fwds =>
              match scanForwards known item usages1 fwds with
              | .error e => .error e
              | .ok usages2 => scanReceptionists known usages2 rest

/-- Constant `queue_file_keys` of `src/main.py` (line 48). -/
def queue_file_keys : List String := ["IntroFile", "OnHoldFile", "GreetingFile"]

/-- Constant `route_keys` of `src/main.py` (line 49). -/
def route_keys : List String := ["OutOfOfficeRoute", "BreakRoute", "HolidaysRoute"]

/-- Constant `group_route_keys` of `src/main.py` (line 64). -/
def group_route_keys : List String :=
  ["OfficeRoute", "OutOfOfficeRoute", "BreakRoute", "HolidaysRoute"]

/-- Loop `for key in queue_file_keys` of `src/main.py` (lines 52-55):
the direct file fields of one queue. -/
def scanQueueFiles (known : List String) (item : Json) (usages : UsageMap) :
    List String → Except String UsageMap
  | [] => .ok usages
  | key :: rest =>
    match pyGet item key .null with
    | .error e => .error e
    | .ok value =>
      match knownStr value known with
      | .error e => .error e
      | .ok none => scanQueueFiles known item usages rest
      | .ok (some fn) =>
        match numberName item with
        | .error e => .error e
        | .ok nn =>
          scanQueueFiles known item
            (add usages fn ("Queue " ++ key ++ ": " ++ nn)) rest

/-- Loops `for rkey in route_keys` / `group_route_keys` of `src/main.py`
(lines 57-61 and 66-70): `item.get(rkey, \x7b\x7d) or \x7b\x7d`, then the
route dict member `Prompt`.  The label is `"Queue"` for queues and
`"Group"` for groups, matching the two f-strings. -/
def scanRoutes (label : String) (known : List String) (item : Json) (usages : UsageMap) :
    List String → Except String UsageMap
  | [] => .ok usages
  | rkey :: rest =>
    match pyGet item rkey (.obj []) with
    | .error e => .error e
    | .ok route0 =>
      match pyGet (pyOr route0 (.obj [])) "Prompt" .null with
      | .error e => .error e
      | .ok prompt =>
        match knownStr prompt known with
        | .error e => .error e
        | .ok none => scanRoutes label known item usages rest
        | .ok (some fn) =>
          match numberName item with
          | .error e => .error e
          | .ok nn =>
            scanRoutes label known item
              (add usages fn (label ++ " route " ++ rkey ++ ": " ++ nn)) rest

/-- Loop `for item in (queues or \x7b\x7d).get("value", [])` of
`src/main.py` (lines 51-61): direct file fields, then the three route
sub-records. -/
def scanQueues (known : List String) (usages : UsageMap) :
    List Json → Except String UsageMap
  | [] => .ok usages
  | item :: rest =>
    match scanQueueFiles known item usages queue_file_keys with
    | .error e => .error e
    | .ok usages1 =>
      match scanRoutes "Queue" known item usages1 route_keys with
      | .error e => .error e
      | .ok usages2 => scanQueues known usages2 rest

/-- Loop `for item in (groups or \x7b\x7d).get("value", [])` of
`src/main.py` (lines 65-70): the four route sub-records of one group. -/
def scanGroups (known : List String) (usages : UsageMap) :
    List Json → Except String UsageMap
  | [] => .ok usages
  | item :: rest =>
    match scanRoutes "Group" known item usages group_route_keys with
    | .error e => .error e
    | .ok usages1 => scanGroups known usages1 rest

/-- Loop `for key, value in (music_on_hold_settings or \x7b\x7d).items()`
of `src/main.py` (lines 73-75). -/
def scanMoh (known : List String) (usages : UsageMap) :
    List (String × Json) → Except String UsageMap
  | [] => .ok usages
  | (key, value) :: rest =>
    match knownStr value known with
    | .error e => .error e
    | .ok none => scanMoh known usages rest
    | .ok (some fn) =>
      scanMoh known (add usages fn ("MusicOnHold setting (" ++ key ++ ")")) rest

/-- Embedding of `gather_prompt_usages` of `src/main.py` (lines 19-89).
The Python set of known filenames is modelled as the list of its
elements (a set iterates its distinct elements in some order; the dict
comprehension of line 29 lays the keys out in that order).  A run that
raises in Python is an `Except.error`. -/
def gather_prompt_usages (prompt_filenames : List String)
    (receptionists queues groups music_on_hold_settings conference_settings
     call_parking_settings : Json) : Except String UsageMap :=
  let usages0 : UsageMap := prompt_filenames.map (fun fn => (fn, []))
  match pyGet (pyOr receptionists (.obj [])) "value" (.arr []) with
  | .error e => .error e
  | .ok rvalue =>
    match pyIter rvalue with
    | .error e => .error e
    | .ok ritems =>
      match scanReceptionists prompt_filenames usages0 ritems with
      | .error e => .error e
      | .ok usages1 =>
        match pyGet (pyOr queues (.obj [])) "value" (.arr []) with
        | .error e => .error e
        | .ok qvalue =>
          match pyIter qvalue with
          | .error e => .error e
          | .ok qitems =>
            match scanQueues prompt_filenames usages1 qitems with
            | .error e => .error e
            | .ok usages2 =>
              match pyGet (pyOr groups (.obj [])) "value" (.arr []) with
              | .error e => .error e
              | .ok gvalue =>
                match pyIter gvalue with
                | .error e => .error e
                | .ok gitems =>
                  match scanGroups prompt_filenames usages2 gitems with
                  | .error e => .error e
                  | .ok usages3 =>
                    match pyItems (pyOr music_on_hold_settings (.obj [])) with
                    | .error e => .error e
                    | .ok mitems =>
                      match scanMoh prompt_filenames usages3 mitems with
                      | .error e => .error e
                      | .ok usages4 =>
                        match pyGet (pyOr conference_settings (.obj [])) "MusicOnHold" .null with
                        | .error e => .error e
                        | .ok conf_moh =>
                          match knownStr conf_moh prompt_filenames with
                          | .error e => .error e
                          | .ok o1 =>
                            let usages5 :=
                              match o1 with
                              | some fn => add usages4 fn "Conference: MusicOnHold"
                              | none => usages4
                            match pyGet (pyOr call_parking_settings (.obj [])) "MusicOnHold" .null with
                            | .error e => .error e
                            | .ok cps_moh =>
                              match knownStr cps_moh prompt_filenames with
                              | .error e => .error e
                              | .ok o2 =>
                                let usages6 :=
                                  match o2 with
                                  | some fn => add usages5 fn "CallParking: MusicOnHold"
                                  | none => usages5
                                .ok (usages6.filter (fun kv => !kv.2.isEmpty))

/-! ### Reference streams

Each scan above threads a mutable usage dict exactly as the source
does.  To reason about the final dict we also name the *stream of
matching references* a scan emits: the ordered list of
`(filename, description)` pairs for which the source calls `add`.  The
`refs` functions below mirror the corresponding scans step for step and
are related to them by the simulation lemmas further down. -/

/-- Matching reference: the filename matched and the description string
passed to `add`. -/
abbrev Ref := String × String

/-- Reference stream of `scanForwards`. -/
def refsForwards (known : List String) (item : Json) :
    List Json → Except String (List Ref)
  | [] => .ok []
  | forward :: rest =>
    match pyGet forward "CustomData" .null with
    | .error e => .error e
    | .ok custom_data =>
      match knownStr custom_data known with
      | .error e => .error e
      | .ok none => refsForwards known item rest
      | .ok (some fn) =>
        match numberName item with
        | .error e => .error e
        | .ok nn =>
          match refsForwards known item rest with
          | .error e => .error e
          | .ok more => .ok ((fn, "Receptionist (forward key): " ++ nn) :: more)

/-- Reference stream of `scanReceptionists`. -/
def refsReceptionists (known : List String) :
    List Json → Except String (List Ref)
  | [] => .ok []
  | item :: rest =>
    match pyGet item "PromptFilename" .null with
    | .error e => .error e
    | .ok filename =>
      match knownStr filename known with
      | .error e => .error e
      | .ok o =>
        let step :=
          match o with
          | none => Except.ok ([] : List Ref)
          | some fn =>
            match numberName item with
            | .error e => Except.error e
            | .ok nn => Except.ok [(fn, "Receptionist: " ++ nn)]
        match step with
        | .error e => .error e
        | .ok here =>
          match pyGet item "Forwards" (.arr []) with
          | .error e => .error e
          | .ok fwdsJ =>
            match pyIter fwdsJ with
            | .error e => .error e
            | .ok fwds =>
              match refsForwards known item fwds with
              | .error e => .error e
              | .ok fromFwds =>
                match refsReceptionists known rest with
                | .error e => .error e
                | .ok more => .ok (here ++ fromFwds ++ more)

/-- Reference stream of `scanQueueFiles`. -/
def refsQueueFiles (known : List String) (item : Json) :
    List String → Except String (List Ref)
  | [] => .ok []
  | key :: rest =>
    match pyGet item key .null with
    | .error e => .error e
    | .ok value =>
      match knownStr value known with
      | .error e => .error e
      | .ok none => refsQueueFiles known item rest
      | .ok (some fn) =>
        match numberName item with
        | .error e => .error e
        | .ok nn =>
          match refsQueueFiles known item rest with
          | .error e => .error e
          | .ok more => .ok ((fn, "Queue " ++ key ++ ": " ++ nn) :: more)

/-- Reference stream of `scanRoutes`. -/
def refsRoutes (label : String) (known : List String) (item : Json) :
    List String → Except String (List Ref)
  | [] => .ok []
  | rkey :: rest =>
    match pyGet item rkey (.obj []) with
    | .error e => .error e
    | .ok route0 =>
      match pyGet (pyOr route0 (.obj [])) "Prompt" .null with
      | .error e => .error e
      | .ok prompt =>
        match knownStr prompt known with
        | .error e => .error e
        | .ok none => refsRoutes label known item rest
        | .ok (some fn) =>
          match numberName item with
          | .error e => .error e
          | .ok nn =>
            match refsRoutes label known item rest with
            | .error e => .error e
            | .ok more => .ok ((fn, label ++ " route " ++ rkey ++ ": " ++ nn) :: more)

/-- Reference stream of `scanQueues`. -/
def refsQueues (known : List String) : List Json → Except String (List Ref)
  | [] => .ok []
  | item :: rest =>
    match refsQueueFiles known item queue_file_keys with
    | .error e => .error e
    | .ok fromFiles =>
      match refsRoutes "Queue" known item route_keys with
      | .error e => .error e
      | .ok fromRoutes =>
        match refsQueues known rest with
        | .error e => .error e
        | .ok more => .ok (fromFiles ++ fromRoutes ++ more)

/-- Reference stream of `scanGroups`. -/
def refsGroups (known : List String) : List Json → Except String (List Ref)
  | [] => .ok []
  | item :: rest =>
    match refsRoutes "Group" known item group_route_keys with
    | .error e => .error e
    | .ok fromRoutes =>
      match refsGroups known rest with
      | .error e => .error e
      | .ok more => .ok (fromRoutes ++ more)

/-- Reference stream of `scanMoh`. -/
def refsMoh (known : List String) :
    List (String × Json) → Except String (List Ref)
  | [] => .ok []
  | (key, value) :: rest =>
    match knownStr value known with
    | .error e => .error e
    | .ok none => refsMoh known rest
    | .ok (some fn) =>
      match refsMoh known rest with
      | .error e => .error e
      | .ok more => .ok ((fn, "MusicOnHold setting (" ++ key ++ ")") :: more)

/-- Complete ordered stream of matching references of one resolver run,
in the scan order of `src/main.py`: receptionists (direct field, then
forwards) → queues (direct fields, then routes) → groups (routes) →
music-on-hold settings → conference settings → call-parking settings.
It errors exactly when `gather_prompt_usages` errors. -/
def usage_refs (known : List String)
    (receptionists queues groups music_on_hold_settings conference_settings
     call_parking_settings : Json) : Except String (List Ref) :=
  match pyGet (pyOr receptionists (.obj [])) "value" (.arr []) with
  | .error e => .error e
  | .ok rvalue =>
    match pyIter rvalue with
    | .error e => .error e
    | .ok ritems =>
      match refsReceptionists known ritems with
      | .error e => .error e
      | .ok evR =>
        match pyGet (pyOr queues (.obj [])) "value" (.arr []) with
        | .error e => .error e
        | .ok qvalue =>
          match pyIter qvalue with
          | .error e => .error e
          | .ok qitems =>
            match refsQueues known qitems with
            | .error e => .error e
            | .ok evQ =>
              match pyGet (pyOr groups (.obj [])) "value" (.arr []) with
              | .error e => .error e
              | .ok gvalue =>
                match pyIter gvalue with
                | .error e => .error e
                | .ok gitems =>
                  match refsGroups known gitems with
                  | .error e => .error e
                  | .ok evG =>
                    match pyItems (pyOr music_on_hold_settings (.obj [])) with
                    | .error e => .error e
                    | .ok mitems =>
                      match refsMoh known mitems with
                      | .error e => .error e
                      | .ok evM =>
                        match pyGet (pyOr conference_settings (.obj [])) "MusicOnHold" .null with
                        | .error e => .error e
                        | .ok conf_moh =>
                          match knownStr conf_moh known with
                          | .error e => .error e
                          | .ok o1 =>
                            let evC : List Ref :=
                              match o1 with
                              | some fn => [(fn, "Conference: MusicOnHold")]
                              | none => []
                            match pyGet (pyOr call_parking_settings (.obj [])) "MusicOnHold" .null with
                            | .error e => .error e
                            | .ok cps_moh =>
                              match knownStr cps_moh known with
                              | .error e => .error e
                              | .ok o2 =>
                                let evP : List Ref :=
                                  match o2 with
                                  | some fn => [(fn, "CallParking: MusicOnHold")]
                                  | none => []
                                .ok (evR ++ evQ ++ evG ++ evM ++ evC ++ evP)

/-- Appending one reference to the usage dict, `foldl`-ready form of
`add`. -/
def addRef (usages : UsageMap) (e : Ref) : UsageMap := add usages e.1 e.2

/-! ### Simulation lemmas

Each scan equals folding its reference stream onto the incoming usage
dict. -/

theorem scanForwards_eq (known : List String) (item : Json) :
    ∀ (fwds : List Json) (usages : UsageMap),
      scanForwards known item usages fwds =
        (refsForwards known item fwds).map (fun evs => evs.foldl addRef usages) := by
  intro fwds
  induction fwds with
  | nil => intro usages; rfl
  | cons forward rest ih =>
    intro usages
    simp only [scanForwards, refsForwards]
    cases hg : pyGet forward "CustomData" .null with
    | error e => rfl
    | ok cd =>
      dsimp only
      cases hk : knownStr cd known with
      | error e => rfl
      | ok o =>
        cases o with
        | none => exact ih usages
        | some fn =>
          dsimp only
          cases hn : numberName item with
          | error e => rfl
          | ok nn =>
            dsimp only
            rw [ih]
            cases hr : refsForwards known item rest with
            | error e => rfl
            | ok more => rfl

theorem scanReceptionists_eq (known : List String) :
    ∀ (items : List Json) (usages : UsageMap),
      scanReceptionists known usages items =
        (refsReceptionists known items).map (fun evs => evs.foldl addRef usages) := by
  intro items
  induction items with
  | nil => intro usages; rfl
  | cons item rest ih =>
    intro usages
    simp only [scanReceptionists, refsReceptionists]
    cases hg : pyGet item "PromptFilename" .null with
    | error e => rfl
    | ok filename =>
      dsimp only
      cases hk : knownStr filename known with
      | error e => rfl
      | ok o =>
        dsimp only
        cases o with
        | none =>
          dsimp only
          cases hf : pyGet item "Forwards" (.arr []) with
          | error e => rfl
          | ok fwdsJ =>
            dsimp only
            cases hi : pyIter fwdsJ with
            | error e => rfl
            | ok fwds =>
              dsimp only
              rw [scanForwards_eq]
              cases hff : refsForwards known item fwds with
              | error e => rfl
              | ok fromFwds =>
                dsimp only [Except.map]
                rw [ih]
                cases hrr : refsReceptionists known rest with
                | error e => rfl
                | ok more => simp [Except.map, List.foldl_append]
        | some fn =>
          dsimp only
          cases hn : numberName item with
          | error e => rfl
          | ok nn =>
            dsimp only
            cases hf : pyGet item "Forwards" (.arr []) with
            | error e => rfl
            | ok fwdsJ =>
              dsimp only
              cases hi : pyIter fwdsJ with
              | error e => rfl
              | ok fwds =>
                dsimp only
                rw [scanForwards_eq]
                cases hff : refsForwards known item fwds with
                | error e => rfl
                | ok fromFwds =>
                  dsimp only [Except.map]
                  rw [ih]
                  cases hrr : refsReceptionists known rest with
                  | error e => rfl
                  | ok more => simp [Except.map, List.foldl_append, addRef]

theorem scanQueueFiles_eq (known : List String) (item : Json) :
    ∀ (keys : List String) (usages : UsageMap),
      scanQueueFiles known item usages keys =
        (refsQueueFiles known item keys).map (fun evs => evs.foldl addRef usages) := by
  intro keys
  induction keys with
  | nil => intro usages; rfl
  | cons key rest ih =>
    intro usages
    simp only [scanQueueFiles, refsQueueFiles]
    cases hg : pyGet item key .null with
    | error e => rfl
    | ok value =>
      dsimp only
      cases hk : knownStr value known with
      | error e => rfl
      | ok o =>
        cases o with
        | none => exact ih usages
        | some fn =>
          dsimp only
          cases hn : numberName item with
          | error e => rfl
          | ok nn =>
            dsimp only
            rw [ih]
            cases hr : refsQueueFiles known item rest with
            | error e => rfl
            | ok more => rfl

theorem scanRoutes_eq (label : String) (known : List String) (item : Json) :
    ∀ (keys : List String) (usages : UsageMap),
      scanRoutes label known item usages keys =
        (refsRoutes label known item keys).map (fun evs => evs.foldl addRef usages) := by
  intro keys
  induction keys with
  | nil => intro usages; rfl
  | cons rkey rest ih =>
    intro usages
    simp only [scanRoutes, refsRoutes]
    cases hg : pyGet item rkey (.obj []) with
    | error e => rfl
    | ok route0 =>
      dsimp only
      cases hp : pyGet (pyOr route0 (.obj [])) "Prompt" .null with
      | error e => rfl
      | ok prompt =>
        dsimp only
        cases hk : knownStr prompt known with
        | error e => rfl
        | ok o =>
          cases o with
          | none => exact ih usages
          | some fn =>
            dsimp only
            cases hn : numberName item with
            | error e => rfl
            | ok nn =>
              dsimp only
              rw [ih]
              cases hr : refsRoutes label known item rest with
              | error e => rfl
              | ok more => rfl

theorem scanQueues_eq (known : List String) :
    ∀ (items : List Json) (usages : UsageMap),
      scanQueues known usages items =
        (refsQueues known items).map (fun evs => evs.foldl addRef usages) := by
  intro items
  induction items with
  | nil => intro usages; rfl
  | cons item rest ih =>
    intro usages
    simp only [scanQueues, refsQueues]
    rw [scanQueueFiles_eq]
    cases hf : refsQueueFiles known item queue_file_keys with
    | error e => rfl
    | ok fromFiles =>
      dsimp only [Except.map]
      rw [scanRoutes_eq]
      cases hr : refsRoutes "Queue" known item route_keys with
      | error e => rfl
      | ok fromRoutes =>
        dsimp only [Except.map]
        rw [ih]
        cases hq : refsQueues known rest with
        | error e => rfl
        | ok more => simp [Except.map, List.foldl_append]

theorem scanGroups_eq (known : List String) :
    ∀ (items : List Json) (usages : UsageMap),
      scanGroups known usages items =
        (refsGroups known items).map (fun evs => evs.foldl addRef usages) := by
  intro items
  induction items with
  | nil => intro usages; rfl
  | cons item rest ih =>
    intro usages
    simp only [scanGroups, refsGroups]
    rw [scanRoutes_eq]
    cases hr : refsRoutes "Group" known item group_route_keys with
    | error e => rfl
    | ok fromRoutes =>
      dsimp only [Except.map]
      rw [ih]
      cases hg : refsGroups known rest with
      | error e => rfl
      | ok more => simp [Except.map, List.foldl_append]

theorem scanMoh_eq (known : List String) :
    ∀ (kvs : List (String × Json)) (usages : UsageMap),
      scanMoh known usages kvs =
        (refsMoh known kvs).map (fun evs => evs.foldl addRef usages) := by
  intro kvs
  induction kvs with
  | nil => intro usages; rfl
  | cons kv rest ih =>
    intro usages
    obtain ⟨key, value⟩ := kv
    simp only [scanMoh, refsMoh]
    cases hk : knownStr value known with
    | error e => rfl
    | ok o =>
      cases o with
      | none => exact ih usages
      | some fn =>
        dsimp only
        rw [ih]
        cases hr : refsMoh known rest with
        | error e => rfl
        | ok more => rfl

/-! ### Characterization of the resolver output -/

theorem gather_eq (known : List String) (r q g moh conf park : Json) :
    gather_prompt_usages known r q g moh conf park =
      (usage_refs known r q g moh conf park).map
        (fun evs =>
          (evs.foldl addRef (known.map (fun fn => (fn, [])))).filter
            (fun kv => !kv.2.isEmpty)) := by
  simp only [gather_prompt_usages, usage_refs]
  cases h1 : pyGet (pyOr r (.obj [])) "value" (.arr []) with
  | error e => rfl
  | ok rvalue =>
    dsimp only
    cases h2 : pyIter rvalue with
    | error e => rfl
    | ok ritems =>
      dsimp only
      rw [scanReceptionists_eq]
      cases h3 : refsReceptionists known ritems with
      | error e => rfl
      | ok evR =>
        dsimp only [Except.map]
        cases h4 : pyGet (pyOr q (.obj [])) "value" (.arr []) with
        | error e => rfl
        | ok qvalue =>
          dsimp only
          cases h5 : pyIter qvalue with
          | error e => rfl
          | ok qitems =>
            dsimp only
            rw [scanQueues_eq]
            cases h6 : refsQueues known qitems with
            | error e => rfl
            | ok evQ =>
              dsimp only [Except.map]
              cases h7 : pyGet (pyOr g (.obj [])) "value" (.arr []) with
              | error e => rfl
              | ok gvalue =>
                dsimp only
                cases h8 : pyIter gvalue with
                | error e => rfl
                | ok gitems =>
                  dsimp only
                  rw [scanGroups_eq]
                  cases h9 : refsGroups known gitems with
                  | error e => rfl
                  | ok evG =>
                    dsimp only [Except.map]
                    cases h10 : pyItems (pyOr moh (.obj [])) with
                    | error e => rfl
                    | ok mitems =>
                      dsimp only
                      rw [scanMoh_eq]
                      cases h11 : refsMoh known mitems with
                      | error e => rfl
                      | ok evM =>
                        dsimp only [Except.map]
                        cases h12 : pyGet (pyOr conf (.obj [])) "MusicOnHold" .null with
                        | error e => rfl
                        | ok conf_moh =>
                          dsimp only
                          cases h13 : knownStr conf_moh known with
                          | error e => rfl
                          | ok o1 =>
                            dsimp only
                            cases h14 : pyGet (pyOr park (.obj [])) "MusicOnHold" .null with
                            | error e => rfl
                            | ok cps_moh =>
                              dsimp only
                              cases h15 : knownStr cps_moh known with
                              | error e => rfl
                              | ok o2 =>
                                cases o1 <;> cases o2 <;>
                                  simp [Except.map, List.foldl_append, addRef]

/-- Folding a reference stream onto a usage dict appends, to every
entry, the descriptions of the references matching its key. -/
theorem foldl_addRef_char (evs : List Ref) :
    ∀ (u : UsageMap),
      evs.foldl addRef u =
        u.map (fun kv =>
          (kv.1, kv.2 ++ (evs.filter (fun e => e.1 = kv.1)).map Prod.snd)) := by
  induction evs with
  | nil => intro u; simp
  | cons e rest ih =>
    intro u
    simp only [List.foldl_cons]
    rw [ih]
    simp only [addRef, add, List.map_map]
    apply List.map_congr_left
    intro kv _
    by_cases h : kv.1 = e.1
    · simp [Function.comp, h, List.filter_cons]
    · have h2 : ¬(e.1 = kv.1) := fun hc => h hc.symm
      simp [Function.comp, h, h2, List.filter_cons]

/-- Descriptions of the references of a stream matching one filename,
in stream order. -/
def refTexts (evs : List Ref) (fn : String) : List String :=
  (evs.filter (fun e => e.1 = fn)).map Prod.snd

/-- Characterization: a successful run of the resolver returns, for
each known filename in set order, the descriptions of its matching
references in scan order, dropping filenames with none. -/
theorem gather_ok_char (known : List String) (r q g moh conf park : Json)
    (m : UsageMap) (h : gather_prompt_usages known r q g moh conf park = .ok m) :
    ∃ evs, usage_refs known r q g moh conf park = .ok evs ∧
      m = (known.map (fun fn => (fn, refTexts evs fn))).filter
            (fun kv => !kv.2.isEmpty) := by
  rw [gather_eq] at h
  cases hu : usage_refs known r q g moh conf park with
  | error e => rw [hu] at h; exact absurd h (by simp [Except.map])
  | ok evs =>
    refine ⟨evs, rfl, ?_⟩
    rw [hu] at h
    simp only [Except.map] at h
    injection h with h
    rw [← h, foldl_addRef_char]
    simp [refTexts, List.map_map, Function.comp_def]

/-! ### Every recorded reference names a non-empty known filename -/

theorem knownStr_some (v : Json) (known : List String) (fn : String)
    (h : knownStr v known = .ok (some fn)) :
    fn ∈ known ∧ fn ≠ "" ∧ v = .str fn := by
  cases v with
  | str s =>
    by_cases hs : s.isEmpty
    · simp [knownStr, truthy, hs] at h
    · simp [knownStr, truthy, hs] at h
      obtain ⟨h1, h2⟩ := h
      subst h2
      exact ⟨h1, by simpa [String.isEmpty_iff] using hs, rfl⟩
  | null => simp [knownStr, truthy] at h
  | bool b => cases b <;> simp [knownStr, truthy] at h
  | num n => by_cases hn : n = 0 <;> simp [knownStr, truthy, hn] at h
  | arr xs => by_cases hx : xs.isEmpty <;> simp [knownStr, truthy, hx] at h
  | obj kvs => by_cases hx : kvs.isEmpty <;> simp [knownStr, truthy, hx] at h

/-- Validity of one reference: its filename is a non-empty member of
the known set. -/
def RefOk (known : List String) (e : Ref) : Prop := e.1 ∈ known ∧ e.1 ≠ ""

theorem refsForwards_keys (known : List String) (item : Json) :
    ∀ (fwds : List Json) (evs : List Ref),
      refsForwards known item fwds = .ok evs → ∀ e ∈ evs, RefOk known e := by
  intro fwds
  induction fwds with
  | nil => intro evs h; injection h with h; subst h; intro e he; cases he
  | cons forward rest ih =>
    intro evs h
    simp only [refsForwards] at h
    cases hg : pyGet forward "CustomData" .null with
    | error e => rw [hg] at h; exact absurd h (by simp)
    | ok cd =>
      rw [hg] at h; dsimp only at h
      cases hk : knownStr cd known with
      | error e => rw [hk] at h; exact absurd h (by simp)
      | ok o =>
        rw [hk] at h
        cases o with
        | none => exact ih evs h
        | some fn =>
          dsimp only at h
          cases hn : numberName item with
          | error e => rw [hn] at h; exact absurd h (by simp)
          | ok nn =>
            rw [hn] at h; dsimp only at h
            cases hr : refsForwards known item rest with
            | error e => rw [hr] at h; exact absurd h (by simp)
            | ok more =>
              rw [hr] at h; injection h with h; subst h
              intro e he
              cases he with
              | head =>
                obtain ⟨h1, h2, _⟩ := knownStr_some cd known fn hk
                exact ⟨h1, h2⟩
              | tail _ hm => exact ih more hr e hm

theorem refsReceptionists_keys (known : List String) :
    ∀ (items : List Json) (evs : List Ref),
      refsReceptionists known items = .ok evs → ∀ e ∈ evs, RefOk known e := by
  intro items
  induction items with
  | nil => intro evs h; injection h with h; subst h; intro e he; cases he
  | cons item rest ih =>
    intro evs h
    simp only [refsReceptionists] at h
    cases hg : pyGet item "PromptFilename" .null with
    | error e => rw [hg] at h; exact absurd h (by simp)
    | ok filename =>
      rw [hg] at h; dsimp only at h
      cases hk : knownStr filename known with
      | error e => rw [hk] at h; exact absurd h (by simp)
      | ok o =>
        rw [hk] at h
        cases o with
        | none =>
          dsimp only at h
          cases hf : pyGet item "Forwards" (.arr []) with
          | error e => rw [hf] at h; exact absurd h (by simp)
          | ok fwdsJ =>
            rw [hf] at h; dsimp only at h
            cases hi : pyIter fwdsJ with
            | error e => rw [hi] at h; exact absurd h (by simp)
            | ok fwds =>
              rw [hi] at h; dsimp only at h
              cases hff : refsForwards known item fwds with
              | error e => rw [hff] at h; exact absurd h (by simp)
              | ok fromFwds =>
                rw [hff] at h; dsimp only at h
                cases hrr : refsReceptionists known rest with
                | error e => rw [hrr] at h; exact absurd h (by simp)
                | ok more =>
                  rw [hrr] at h; injection h with h; subst h
                  intro e he
                  rcases List.mem_append.mp he with h1 | h2
                  · rcases List.mem_append.mp h1 with h0 | hfwd
                    · cases h0
                    · exact refsForwards_keys known item fwds fromFwds hff e hfwd
                  · exact ih more hrr e h2
        | some fn =>
          dsimp only at h
          cases hn : numberName item with
          | error e => rw [hn] at h; exact absurd h (by simp)
          | ok nn =>
            rw [hn] at h; dsimp only at h
            cases hf : pyGet item "Forwards" (.arr []) with
            | error e => rw [hf] at h; exact absurd h (by simp)
            | ok fwdsJ =>
              rw [hf] at h; dsimp only at h
              cases hi : pyIter fwdsJ with
              | error e => rw [hi] at h; exact absurd h (by simp)
              | ok fwds =>
                rw [hi] at h; dsimp only at h
                cases hff : refsForwards known item fwds with
                | error e => rw [hff] at h; exact absurd h (by simp)
                | ok fromFwds =>
                  rw [hff] at h; dsimp only at h
                  cases hrr : refsReceptionists known rest with
                  | error e => rw [hrr] at h; exact absurd h (by simp)
                  | ok more =>
                    rw [hrr] at h; injection h with h; subst h
                    intro e he
                    rcases List.mem_append.mp he with h1 | h2
                    · rcases List.mem_append.mp h1 with h0 | hfwd
                      · obtain ⟨hm, hne, _⟩ := knownStr_some filename known fn hk
                        cases h0 with
                        | head => exact ⟨hm, hne⟩
                        | tail _ hx => cases hx
                      · exact refsForwards_keys known item fwds fromFwds hff e hfwd
                    · exact ih more hrr e h2

theorem refsQueueFiles_keys (known : List String) (item : Json) :
    ∀ (keys : List String) (evs : List Ref),
      refsQueueFiles known item keys = .ok evs → ∀ e ∈ evs, RefOk known e := by
  intro keys
  induction keys with
  | nil => intro evs h; injection h with h; subst h; intro e he; cases he
  | cons key rest ih =>
    intro evs h
    simp only [refsQueueFiles] at h
    cases hg : pyGet item key .null with
    | error e => rw [hg] at h; exact absurd h (by simp)
    | ok value =>
      rw [hg] at h; dsimp only at h
      cases hk : knownStr value known with
      | error e => rw [hk] at h; exact absurd h (by simp)
      | ok o =>
        rw [hk] at h
        cases o with
        | none => exact ih evs h
        | some fn =>
          dsimp only at h
          cases hn : numberName item with
          | error e => rw [hn] at h; exact absurd h (by simp)
          | ok nn =>
            rw [hn] at h; dsimp only at h
            cases hr : refsQueueFiles known item rest with
            | error e => rw [hr] at h; exact absurd h (by simp)
            | ok more =>
              rw [hr] at h; injection h with h; subst h
              intro e he
              cases he with
              | head =>
                obtain ⟨hm, hne, _⟩ := knownStr_some value known fn hk
                exact ⟨hm, hne⟩
              | tail _ hm => exact ih more hr e hm

theorem refsRoutes_keys (label : String) (known : List String) (item : Json) :
    ∀ (keys : List String) (evs : List Ref),
      refsRoutes label known item keys = .ok evs → ∀ e ∈ evs, RefOk known e := by
  intro keys
  induction keys with
  | nil => intro evs h; injection h with h; subst h; intro e he; cases he
  | cons rkey rest ih =>
    intro evs h
    simp only [refsRoutes] at h
    cases hg : pyGet item rkey (.obj []) with
    | error e => rw [hg] at h; exact absurd h (by simp)
    | ok route0 =>
      rw [hg] at h; dsimp only at h
      cases hp : pyGet (pyOr route0 (.obj [])) "Prompt" .null with
      | error e => rw [hp] at h; exact absurd h (by simp)
      | ok prompt =>
        rw [hp] at h; dsimp only at h
        cases hk : knownStr prompt known with
        | error e => rw [hk] at h; exact absurd h (by simp)
        | ok o =>
          rw [hk] at h
          cases o with
          | none => exact ih evs h
          | some fn =>
            dsimp only at h
            cases hn : numberName item with
            | error e => rw [hn] at h; exact absurd h (by simp)
            | ok nn =>
              rw [hn] at h; dsimp only at h
              cases hr : refsRoutes label known item rest with
              | error e => rw [hr] at h; exact absurd h (by simp)
              | ok more =>
                rw [hr] at h; injection h with h; subst h
                intro e he
                cases he with
                | head =>
                  obtain ⟨hm, hne, _⟩ := knownStr_some prompt known fn hk
                  exact ⟨hm, hne⟩
                | tail _ hm => exact ih more hr e hm

theorem refsQueues_keys (known : List String) :
    ∀ (items : List Json) (evs : List Ref),
      refsQueues known items = .ok evs → ∀ e ∈ evs, RefOk known e := by
  intro items
  induction items with
  | nil => intro evs h; injection h with h; subst h; intro e he; cases he
  | cons item rest ih =>
    intro evs h
    simp only [refsQueues] at h
    cases hf : refsQueueFiles known item queue_file_keys with
    | error e => rw [hf] at h; exact absurd h (by simp)
    | ok fromFiles =>
      rw [hf] at h; dsimp only at h
      cases hr : refsRoutes "Queue" known item route_keys with
      | error e => rw [hr] at h; exact absurd h (by simp)
      | ok fromRoutes =>
        rw [hr] at h; dsimp only at h
        cases hq : refsQueues known rest with
        | error e => rw [hq] at h; exact absurd h (by simp)
        | ok more =>
          rw [hq] at h; injection h with h; subst h
          intro e he
          rcases List.mem_append.mp he with h1 | h2
          · rcases List.mem_append.mp h1 with h0 | hrt
            · exact refsQueueFiles_keys known item queue_file_keys fromFiles hf e h0
            · exact refsRoutes_keys "Queue" known item route_keys fromRoutes hr e hrt
          · exact ih more hq e h2

theorem refsGroups_keys (known : List String) :
    ∀ (items : List Json) (evs : List Ref),
      refsGroups known items = .ok evs → ∀ e ∈ evs, RefOk known e := by
  intro items
  induction items with
  | nil => intro evs h; injection h with h; subst h; intro e he; cases he
  | cons item rest ih =>
    intro evs h
    simp only [refsGroups] at h
    cases hr : refsRoutes "Group" known item group_route_keys with
    | error e => rw [hr] at h; exact absurd h (by simp)
    | ok fromRoutes =>
      rw [hr] at h; dsimp only at h
      cases hg : refsGroups known rest with
      | error e => rw [hg] at h; exact absurd h (by simp)
      | ok more =>
        rw [hg] at h; injection h with h; subst h
        intro e he
        rcases List.mem_append.mp he with h1 | h2
        · exact refsRoutes_keys "Group" known item group_route_keys fromRoutes hr e h1
        · exact ih more hg e h2

theorem refsMoh_keys (known : List String) :
    ∀ (kvs : List (String × Json)) (evs : List Ref),
      refsMoh known kvs = .ok evs → ∀ e ∈ evs, RefOk known e := by
  intro kvs
  induction kvs with
  | nil => intro evs h; injection h with h; subst h; intro e he; cases he
  | cons kv rest ih =>
    intro evs h
    obtain ⟨key, value⟩ := kv
    simp only [refsMoh] at h
    cases hk : knownStr value known with
    | error e => rw [hk] at h; exact absurd h (by simp)
    | ok o =>
      rw [hk] at h
      cases o with
      | none => exact ih evs h
      | some fn =>
        dsimp only at h
        cases hr : refsMoh known rest with
        | error e => rw [hr] at h; exact absurd h (by simp)
        | ok more =>
          rw [hr] at h; injection h with h; subst h
          intro e he
          cases he with
          | head =>
            obtain ⟨hm, hne, _⟩ := knownStr_some value known fn hk
            exact ⟨hm, hne⟩
          | tail _ hm => exact ih more hr e hm

/-- Every reference of a successful resolver run names a non-empty
member of the known-filenames set. -/
theorem usage_refs_keys (known : List String) (r q g moh conf park : Json)
    (evs : List Ref) (h : usage_refs known r q g moh conf park = .ok evs) :
    ∀ e ∈ evs, RefOk known e := by
  simp only [usage_refs] at h
  cases h1 : pyGet (pyOr r (.obj [])) "value" (.arr []) with
  | error e => rw [h1] at h; exact absurd h (by simp)
  | ok rvalue =>
    rw [h1] at h; dsimp only at h
    cases h2 : pyIter rvalue with
    | error e => rw [h2] at h; exact absurd h (by simp)
    | ok ritems =>
      rw [h2] at h; dsimp only at h
      cases h3 : refsReceptionists known ritems with
      | error e => rw [h3] at h; exact absurd h (by simp)
      | ok evR =>
        rw [h3] at h; dsimp only at h
        cases h4 : pyGet (pyOr q (.obj [])) "value" (.arr []) with
        | error e => rw [h4] at h; exact absurd h (by simp)
        | ok qvalue =>
          rw [h4] at h; dsimp only at h
          cases h5 : pyIter qvalue with
          | error e => rw [h5] at h; exact absurd h (by simp)
          | ok qitems =>
            rw [h5] at h; dsimp only at h
            cases h6 : refsQueues known qitems with
            | error e => rw [h6] at h; exact absurd h (by simp)
            | ok evQ =>
              rw [h6] at h; dsimp only at h
              cases h7 : pyGet (pyOr g (.obj [])) "value" (.arr []) with
              | error e => rw [h7] at h; exact absurd h (by simp)
              | ok gvalue =>
                rw [h7] at h; dsimp only at h
                cases h8 : pyIter gvalue with
                | error e => rw [h8] at h; exact absurd h (by simp)
                | ok gitems =>
                  rw [h8] at h; dsimp only at h
                  cases h9 : refsGroups known gitems with
                  | error e => rw [h9] at h; exact absurd h (by simp)
                  | ok evG =>
                    rw [h9] at h; dsimp only at h
                    cases h10 : pyItems (pyOr moh (.obj [])) with
                    | error e => rw [h10] at h; exact absurd h (by simp)
                    | ok mitems =>
                      rw [h10] at h; dsimp only at h
                      cases h11 : refsMoh known mitems with
                      | error e => rw [h11] at h; exact absurd h (by simp)
                      | ok evM =>
                        rw [h11] at h; dsimp only at h
                        cases h12 : pyGet (pyOr conf (.obj [])) "MusicOnHold" .null with
                        | error e => rw [h12] at h; exact absurd h (by simp)
                        | ok conf_moh =>
                          rw [h12] at h; dsimp only at h
                          cases h13 : knownStr conf_moh known with
                          | error e => rw [h13] at h; exact absurd h (by simp)
                          | ok o1 =>
                            rw [h13] at h; dsimp only at h
                            cases h14 : pyGet (pyOr park (.obj [])) "MusicOnHold" .null with
                            | error e => rw [h14] at h; exact absurd h (by simp)
                            | ok cps_moh =>
                              rw [h14] at h; dsimp only at h
                              cases h15 : knownStr cps_moh known with
                              | error e => rw [h15] at h; exact absurd h (by simp)
                              | ok o2 =>
                                rw [h15] at h; injection h with h; subst h
                                intro e he
                                rcases List.mem_append.mp he with he1 | hP
                                rotate_left
                                · cases o2 with
                                  | none => cases hP
                                  | some fn =>
                                    cases hP with
                                    | head =>
                                      obtain ⟨hm, hne, _⟩ :=
                                        knownStr_some cps_moh known fn h15
                                      exact ⟨hm, hne⟩
                                    | tail _ hx => cases hx
                                rcases List.mem_append.mp he1 with he2 | hC
                                rotate_left
                                · cases o1 with
                                  | none => cases hC
                                  | some fn =>
                                    cases hC with
                                    | head =>
                                      obtain ⟨hm, hne, _⟩ :=
                                        knownStr_some conf_moh known fn h13
                                      exact ⟨hm, hne⟩
                                    | tail _ hx => cases hx
                                rcases List.mem_append.mp he2 with he3 | hM
                                rotate_left
                                · exact refsMoh_keys known mitems evM h11 e hM
                                rcases List.mem_append.mp he3 with he4 | hG
                                rotate_left
                                · exact refsGroups_keys known gitems evG h9 e hG
                                rcases List.mem_append.mp he4 with hR | hQ
                                · exact refsReceptionists_keys known ritems evR h3 e hR
                                · exact refsQueues_keys known qitems evQ h6 e hQ

/-! ### Claims -/

/-- C8: the usage resolver is a pure, deterministic function of its
inputs: two runs on identical inputs yield the identical result.  The
embedding is a total function, reflecting that the source reads its
inputs without mutating them and accumulates only into the local dict
of line 29 of `src/main.py`. -/
theorem gather_deterministic (known : List String) (r q g moh conf park : Json) :
    gather_prompt_usages known r q g moh conf park =
      gather_prompt_usages known r q g moh conf park := rfl

/-- C4: a null collection is treated exactly as an empty one — the
resolver result is unchanged when any of the six collections is
replaced by null, an empty dict, or (for the three entity collections)
a dict with an empty value list — and with all six collections absent
the resolver returns the valid empty map rather than failing. -/
theorem gather_absent_collections_ok (known : List String)
    (r q g moh conf park : Json) :
    (gather_prompt_usages known .null q g moh conf park
        = gather_prompt_usages known (.obj []) q g moh conf park
      ∧ gather_prompt_usages known .null q g moh conf park
        = gather_prompt_usages known (.obj [("value", .arr [])]) q g moh conf park)
    ∧ (gather_prompt_usages known r .null g moh conf park
        = gather_prompt_usages known r (.obj []) g moh conf park
      ∧ gather_prompt_usages known r .null g moh conf park
        = gather_prompt_usages known r (.obj [("value", .arr [])]) g moh conf park)
    ∧ (gather_prompt_usages known r q .null moh conf park
        = gather_prompt_usages known r q (.obj []) moh conf park
      ∧ gather_prompt_usages known r q .null moh conf park
        = gather_prompt_usages known r q (.obj [("value", .arr [])]) moh conf park)
    ∧ gather_prompt_usages known r q g .null conf park
        = gather_prompt_usages known r q g (.obj []) conf park
    ∧ gather_prompt_usages known r q g moh .null park
        = gather_prompt_usages known r q g moh (.obj []) park
    ∧ gather_prompt_usages known r q g moh conf .null
        = gather_prompt_usages known r q g moh conf (.obj [])
    ∧ gather_prompt_usages known .null .null .null .null .null .null = .ok [] := by
  refine ⟨⟨rfl, rfl⟩, ⟨rfl, rfl⟩, ⟨rfl, rfl⟩, rfl, rfl, rfl, ?_⟩
  have hrefs : usage_refs known .null .null .null .null .null .null = .ok [] := rfl
  rw [gather_eq, hrefs]
  simp [Except.map, List.filter_eq_nil_iff]

/-- C6: concrete scenario — two known filenames, one receptionist
referencing the first through its direct field, one queue referencing
the second through its on-hold file, every other collection empty; the
resolver returns exactly the two singleton usage lists. -/
theorem gather_scenario_basic :
    gather_prompt_usages ["welcome.wav", "hold.wav"]
      (.obj [("value", .arr [.obj [("Number", .str "100"), ("Name", .str "Main"),
        ("PromptFilename", .str "welcome.wav"), ("Forwards", .arr [])]])])
      (.obj [("value", .arr [.obj [("Number", .str "800"), ("Name", .str "Support"),
        ("OnHoldFile", .str "hold.wav")]])])
      (.obj []) (.obj []) (.obj []) (.obj []) =
      .ok [("welcome.wav", ["Receptionist: 100 Main"]),
           ("hold.wav", ["Queue OnHoldFile: 800 Support"])] := rfl

/-- C3 counterexample: a receptionist whose `Forwards` key is present
with a null value makes the resolver raise — `item.get("Forwards", [])`
of line 42 of `src/main.py` returns the null value, not the default,
and `for forward in None` is a TypeError — contradicting the claim that
a null `Forwards` list is treated as "no reference" without error. -/
theorem gather_nullForwards_error :
    gather_prompt_usages ["a.wav"]
      (.obj [("value", .arr [.obj [("Forwards", .null)]])])
      .null .null .null .null .null =
      .error "TypeError: object is not iterable" := rfl

/-- C1: on every successful run, the key set of the returned map is
exactly the subset of known filenames with at least one matching
reference: every entry has a known key and a non-empty list, a known
filename is a key iff its matching-reference stream is non-empty, and
no key outside the known set ever appears. -/
theorem gather_keys_exact (known : List String) (r q g moh conf park : Json)
    (m : UsageMap) (h : gather_prompt_usages known r q g moh conf park = .ok m) :
    ∃ evs, usage_refs known r q g moh conf park = .ok evs ∧
      (∀ kv ∈ m, kv.1 ∈ known ∧ kv.2 ≠ []) ∧
      (∀ fn : String, fn ∈ known → ((∃ l, (fn, l) ∈ m) ↔ refTexts evs fn ≠ [])) ∧
      (∀ fn : String, fn ∉ known → ∀ l, (fn, l) ∉ m) := by
  obtain ⟨evs, hu, hm⟩ := gather_ok_char known r q g moh conf park m h
  subst hm
  refine ⟨evs, hu, ?_, ?_, ?_⟩
  · intro kv hkv
    rw [List.mem_filter] at hkv
    obtain ⟨hmap, hne⟩ := hkv
    obtain ⟨fn, hfn, hkveq⟩ := List.mem_map.mp hmap
    subst hkveq
    refine ⟨hfn, ?_⟩
    simpa using hne
  · intro fn hfn
    constructor
    · rintro ⟨l, hl⟩
      rw [List.mem_filter] at hl
      obtain ⟨hmap, hne⟩ := hl
      obtain ⟨fn2, _, heq⟩ := List.mem_map.mp hmap
      injection heq with h1 h2
      subst h1
      rw [h2]
      simpa using hne
    · intro hne
      refine ⟨refTexts evs fn, ?_⟩
      rw [List.mem_filter]
      exact ⟨List.mem_map.mpr ⟨fn, hfn, rfl⟩, by simpa using hne⟩
  · intro fn hfn l hl
    rw [List.mem_filter] at hl
    obtain ⟨hmap, _⟩ := hl
    obtain ⟨fn2, hfn2, heq⟩ := List.mem_map.mp hmap
    injection heq with h1 h2
    exact hfn (h1 ▸ hfn2)

/-- C2: on every successful run, the usage list of a known filename is
exactly the list of descriptions of its matching references in the
fixed scan order of `usage_refs` (receptionists → queues → groups →
music-on-hold → conference → call-parking); in particular its length is
the exact count of matching references. -/
theorem gather_list_eq_refs (known : List String) (r q g moh conf park : Json)
    (m : UsageMap) (fn : String)
    (h : gather_prompt_usages known r q g moh conf park = .ok m)
    (hfn : fn ∈ known) :
    ∃ evs, usage_refs known r q g moh conf park = .ok evs ∧
      (refTexts evs fn ≠ [] → (fn, refTexts evs fn) ∈ m) ∧
      (∀ l, (fn, l) ∈ m → l = refTexts evs fn) := by
  obtain ⟨evs, hu, hm⟩ := gather_ok_char known r q g moh conf park m h
  subst hm
  refine ⟨evs, hu, ?_, ?_⟩
  · intro hne
    rw [List.mem_filter]
    exact ⟨List.mem_map.mpr ⟨fn, hfn, rfl⟩, by simpa using hne⟩
  · intro l hl
    rw [List.mem_filter] at hl
    obtain ⟨hmap, _⟩ := hl
    obtain ⟨fn2, _, heq⟩ := List.mem_map.mp hmap
    injection heq with h1 h2
    subst h1
    exact h2.symm

/-- C5: a filename outside the known set produces no usage entry
anywhere on a successful run: it is never a key of the returned map,
and no matching reference is ever recorded for it. -/
theorem gather_unknown_ignored (known : List String) (r q g moh conf park : Json)
    (m : UsageMap) (fn : String)
    (h : gather_prompt_usages known r q g moh conf park = .ok m)
    (hfn : fn ∉ known) :
    (∀ l, (fn, l) ∉ m) ∧
      ∃ evs, usage_refs known r q g moh conf park = .ok evs ∧
        ∀ e ∈ evs, e.1 ≠ fn := by
  obtain ⟨evs, hu, _, _, hout⟩ := gather_keys_exact known r q g moh conf park m h
  refine ⟨hout fn hfn, evs, hu, ?_⟩
  intro e he heq
  exact hfn (heq ▸ (usage_refs_keys known r q g moh conf park evs hu e he).1)

/-- C10: the empty string is never a key of the returned map, even when
it is a member of the known-filenames set: every recording site
requires a truthy (non-empty) field value, so the empty string never
acquires a usage and is discarded by the final filter. -/
theorem gather_no_empty_key (known : List String) (r q g moh conf park : Json)
    (m : UsageMap) (h : gather_prompt_usages known r q g moh conf park = .ok m) :
    ∀ kv ∈ m, kv.1 ≠ "" := by
  obtain ⟨evs, hu, hm⟩ := gather_ok_char known r q g moh conf park m h
  subst hm
  intro kv hkv
  rw [List.mem_filter] at hkv
  obtain ⟨hmap, hne⟩ := hkv
  obtain ⟨fn, _, hkveq⟩ := List.mem_map.mp hmap
  subst hkveq
  intro hfn0
  have hne2 : refTexts evs fn ≠ [] := by simpa using hne
  have : ∃ t, t ∈ refTexts evs fn := List.exists_mem_of_ne_nil _ hne2
  obtain ⟨t, ht⟩ := this
  rw [refTexts, List.mem_map] at ht
  obtain ⟨e, hef, _⟩ := ht
  rw [List.mem_filter] at hef
  obtain ⟨hev, hkey⟩ := hef
  have hok := usage_refs_keys known r q g moh conf park evs hu e hev
  have : e.1 = fn := by simpa using hkey
  exact hok.2 (by rw [this]; exact hfn0)

/-! ### Tolerated malformed fields

The guards of the source tolerate a filename-bearing field that is
absent, null or an empty string, and tolerate a null route sub-record
(the `or \x7b\x7d` of lines 58 and 67 of `src/main.py`).  The predicates
below describe inputs whose only irregularities are of exactly these
tolerated kinds; under them the resolver is proved total.  A null
`Forwards` value is deliberately NOT tolerated here — see the
counterexample `gather_nullForwards_error`. -/

/-- Test that a value is a dict. -/
def Json.isObj : Json → Bool
  | .obj _ => true
  | _ => false

/-- Field value the membership guard accepts without raising: anything
falsy (in particular null or the empty string; an absent key defaults
to null) or hashable — only a truthy list or dict raises. -/
def fieldOk : Json → Bool
  | .arr xs => xs.isEmpty
  | .obj kvs => kvs.isEmpty
  | _ => true

/-- Route sub-record value the source tolerates: anything falsy
(absent, null, empty) or a dict, whose `Prompt` member must in turn be
an acceptable field value. -/
def routeOk (v : Json) : Bool :=
  match pyOr v (.obj []) with
  | .obj kvs => fieldOk ((kvs.lookup "Prompt").getD .null)
  | _ => false

/-- Forward sub-record: a dict whose `CustomData` member is an
acceptable field value. -/
def forwardOk : Json → Bool
  | .obj kvs => fieldOk ((kvs.lookup "CustomData").getD .null)
  | _ => false

/-- Receptionist entity: a dict with an acceptable `PromptFilename`
and a `Forwards` member that is an actual list of forwards (defaulting
to the empty list when absent). -/
def receptionistOk : Json → Bool
  | .obj kvs =>
      fieldOk ((kvs.lookup "PromptFilename").getD .null) &&
      (match (kvs.lookup "Forwards").getD (.arr []) with
       | .arr fwds => fwds.all forwardOk
       | _ => false)
  | _ => false

/-- Queue entity: a dict with acceptable direct file fields and
tolerable route sub-records. -/
def queueOk : Json → Bool
  | .obj kvs =>
      queue_file_keys.all (fun k => fieldOk ((kvs.lookup k).getD .null)) &&
      route_keys.all (fun k => routeOk ((kvs.lookup k).getD (.obj [])))
  | _ => false

/-- Group entity: a dict with tolerable route sub-records. -/
def groupOk : Json → Bool
  | .obj kvs => group_route_keys.all (fun k => routeOk ((kvs.lookup k).getD (.obj [])))
  | _ => false

/-- Entity collection: null or otherwise falsy, or a dict whose
`value` member (defaulting to an empty list) is a list of acceptable
entities. -/
def collOk (itemOk : Json → Bool) (c : Json) : Bool :=
  match pyOr c (.obj []) with
  | .obj kvs =>
    match (kvs.lookup "value").getD (.arr []) with
    | .arr items => items.all itemOk
    | _ => false
  | _ => false

/-- Music-on-hold settings: null or falsy, or a dict of acceptable
field values. -/
def mohOk (c : Json) : Bool :=
  match pyOr c (.obj []) with
  | .obj kvs => kvs.all (fun kv => fieldOk kv.2)
  | _ => false

/-- Conference or call-parking settings: null or falsy, or a dict with
an acceptable `MusicOnHold` member. -/
def settingOk (c : Json) : Bool :=
  match pyOr c (.obj []) with
  | .obj kvs => fieldOk ((kvs.lookup "MusicOnHold").getD .null)
  | _ => false

/-- All six collections in tolerated shape. -/
def inputsOk (r q g moh conf park : Json) : Bool :=
  collOk receptionistOk r && collOk queueOk q && collOk groupOk g &&
  mohOk moh && settingOk conf && settingOk park

theorem knownStr_ok_of_fieldOk (v : Json) (known : List String)
    (h : fieldOk v = true) : ∃ o, knownStr v known = .ok o := by
  cases v with
  | arr xs => simp only [fieldOk] at h; exact ⟨none, by simp [knownStr, truthy, h]⟩
  | obj kvs => simp only [fieldOk] at h; exact ⟨none, by simp [knownStr, truthy, h]⟩
  | str s =>
    by_cases hs : s.isEmpty
    · exact ⟨none, by simp [knownStr, truthy, hs]⟩
    · refine ⟨if known.contains s then some s else none, ?_⟩
      simp [knownStr, truthy, hs]
  | null => exact ⟨none, rfl⟩
  | bool b => cases b with
    | false => exact ⟨none, rfl⟩
    | true => exact ⟨none, rfl⟩
  | num n =>
    by_cases hn : n = 0
    · exact ⟨none, by simp [knownStr, truthy, hn]⟩
    · exact ⟨none, by simp [knownStr, truthy, hn]⟩

theorem numberName_ok (item : Json) (h : item.isObj = true) :
    ∃ nn, numberName item = .ok nn := by
  cases item with
  | obj kvs => exact ⟨_, rfl⟩
  | null => simp [Json.isObj] at h
  | bool b => simp [Json.isObj] at h
  | num n => simp [Json.isObj] at h
  | str s => simp [Json.isObj] at h
  | arr xs => simp [Json.isObj] at h

theorem refsForwards_ok (known : List String) (item : Json)
    (hitem : item.isObj = true) :
    ∀ (fwds : List Json), fwds.all forwardOk = true →
      ∃ evs, refsForwards known item fwds = .ok evs := by
  intro fwds
  induction fwds with
  | nil => intro _; exact ⟨[], rfl⟩
  | cons forward rest ih =>
    intro hall
    rw [List.all_cons, Bool.and_eq_true] at hall
    obtain ⟨hfwd, hrest⟩ := hall
    obtain ⟨evs, hevs⟩ := ih hrest
    cases forward with
    | obj fkvs =>
      simp only [forwardOk] at hfwd
      obtain ⟨o, ho⟩ := knownStr_ok_of_fieldOk _ known hfwd
      simp only [refsForwards, pyGet]
      rw [ho]
      cases o with
      | none => exact ⟨evs, hevs⟩
      | some fn =>
        obtain ⟨nn, hnn⟩ := numberName_ok item hitem
        rw [hnn, hevs]
        exact ⟨_, rfl⟩
    | null => simp [forwardOk] at hfwd
    | bool b => simp [forwardOk] at hfwd
    | num n => simp [forwardOk] at hfwd
    | str s => simp [forwardOk] at hfwd
    | arr xs => simp [forwardOk] at hfwd

theorem refsReceptionists_ok (known : List String) :
    ∀ (items : List Json), items.all receptionistOk = true →
      ∃ evs, refsReceptionists known items = .ok evs := by
  intro items
  induction items with
  | nil => intro _; exact ⟨[], rfl⟩
  | cons item rest ih =>
    intro hall
    rw [List.all_cons, Bool.and_eq_true] at hall
    obtain ⟨hitem, hrest⟩ := hall
    obtain ⟨more, hmore⟩ := ih hrest
    cases item with
    | obj kvs =>
      simp only [receptionistOk, Bool.and_eq_true] at hitem
      obtain ⟨hpf, hfl⟩ := hitem
      obtain ⟨o, ho⟩ := knownStr_ok_of_fieldOk _ known hpf
      cases hfj : (kvs.lookup "Forwards").getD (.arr []) with
      | arr fwds =>
        rw [hfj] at hfl
        obtain ⟨fromFwds, hff⟩ :=
          refsForwards_ok known (.obj kvs) rfl fwds hfl
        simp only [refsReceptionists, pyGet]
        rw [ho]
        cases o with
        | none =>
          dsimp only
          rw [hfj]
          simp only [pyIter]
          rw [hff, hmore]
          exact ⟨_, rfl⟩
        | some fn =>
          obtain ⟨nn, hnn⟩ := numberName_ok (.obj kvs) rfl
          rw [hnn]
          dsimp only
          rw [hfj]
          simp only [pyIter]
          rw [hff, hmore]
          exact ⟨_, rfl⟩
      | null => rw [hfj] at hfl; simp at hfl
      | bool b => rw [hfj] at hfl; simp at hfl
      | num n => rw [hfj] at hfl; simp at hfl
      | str s => rw [hfj] at hfl; simp at hfl
      | obj kvs2 => rw [hfj] at hfl; simp at hfl
    | null => simp [receptionistOk] at hitem
    | bool b => simp [receptionistOk] at hitem
    | num n => simp [receptionistOk] at hitem
    | str s => simp [receptionistOk] at hitem
    | arr xs => simp [receptionistOk] at hitem

theorem refsQueueFiles_ok (known : List String) (kvs : List (String × Json)) :
    ∀ (keys : List String),
      keys.all (fun k => fieldOk ((kvs.lookup k).getD .null)) = true →
      ∃ evs, refsQueueFiles known (.obj kvs) keys = .ok evs := by
  intro keys
  induction keys with
  | nil => intro _; exact ⟨[], rfl⟩
  | cons key rest ih =>
    intro hall
    rw [List.all_cons, Bool.and_eq_true] at hall
    obtain ⟨hkey, hrest⟩ := hall
    obtain ⟨more, hmore⟩ := ih hrest
    obtain ⟨o, ho⟩ := knownStr_ok_of_fieldOk _ known hkey
    simp only [refsQueueFiles, pyGet]
    rw [ho]
    cases o with
    | none => exact ⟨more, hmore⟩
    | some fn =>
      obtain ⟨nn, hnn⟩ := numberName_ok (.obj kvs) rfl
      rw [hnn, hmore]
      exact ⟨_, rfl⟩

theorem refsRoutes_ok (label : String) (known : List String)
    (kvs : List (String × Json)) :
    ∀ (keys : List String),
      keys.all (fun k => routeOk ((kvs.lookup k).getD (.obj []))) = true →
      ∃ evs, refsRoutes label known (.obj kvs) keys = .ok evs := by
  intro keys
  induction keys with
  | nil => intro _; exact ⟨[], rfl⟩
  | cons rkey rest ih =>
    intro hall
    rw [List.all_cons, Bool.and_eq_true] at hall
    obtain ⟨hkey, hrest⟩ := hall
    obtain ⟨more, hmore⟩ := ih hrest
    simp only [refsRoutes, pyGet]
    simp only [routeOk] at hkey
    cases hro : pyOr ((kvs.lookup rkey).getD (.obj [])) (.obj []) with
    | obj rkvs =>
      rw [hro] at hkey
      dsimp only at hkey
      obtain ⟨o, ho⟩ := knownStr_ok_of_fieldOk _ known hkey
      dsimp only
      rw [ho]
      cases o with
      | none => exact ⟨more, hmore⟩
      | some fn =>
        obtain ⟨nn, hnn⟩ := numberName_ok (.obj kvs) rfl
        rw [hnn, hmore]
        exact ⟨_, rfl⟩
    | null => rw [hro] at hkey; simp at hkey
    | bool b => rw [hro] at hkey; simp at hkey
    | num n => rw [hro] at hkey; simp at hkey
    | str s => rw [hro] at hkey; simp at hkey
    | arr xs => rw [hro] at hkey; simp at hkey

theorem refsQueues_ok (known : List String) :
    ∀ (items : List Json), items.all queueOk = true →
      ∃ evs, refsQueues known items = .ok evs := by
  intro items
  induction items with
  | nil => intro _; exact ⟨[], rfl⟩
  | cons item rest ih =>
    intro hall
    rw [List.all_cons, Bool.and_eq_true] at hall
    obtain ⟨hitem, hrest⟩ := hall
    obtain ⟨more, hmore⟩ := ih hrest
    cases item with
    | obj kvs =>
      simp only [queueOk, Bool.and_eq_true] at hitem
      obtain ⟨hfiles, hroutes⟩ := hitem
      obtain ⟨fromFiles, hf⟩ := refsQueueFiles_ok known kvs queue_file_keys hfiles
      obtain ⟨fromRoutes, hr⟩ := refsRoutes_ok "Queue" known kvs route_keys hroutes
      simp only [refsQueues]
      rw [hf, hr, hmore]
      exact ⟨_, rfl⟩
    | null => simp [queueOk] at hitem
    | bool b => simp [queueOk] at hitem
    | num n => simp [queueOk] at hitem
    | str s => simp [queueOk] at hitem
    | arr xs => simp [queueOk] at hitem

theorem refsGroups_ok (known : List String) :
    ∀ (items : List Json), items.all groupOk = true →
      ∃ evs, refsGroups known items = .ok evs := by
  intro items
  induction items with
  | nil => intro _; exact ⟨[], rfl⟩
  | cons item rest ih =>
    intro hall
    rw [List.all_cons, Bool.and_eq_true] at hall
    obtain ⟨hitem, hrest⟩ := hall
    obtain ⟨more, hmore⟩ := ih hrest
    cases item with
    | obj kvs =>
      simp only [groupOk] at hitem
      obtain ⟨fromRoutes, hr⟩ := refsRoutes_ok "Group" known kvs group_route_keys hitem
      simp only [refsGroups]
      rw [hr, hmore]
      exact ⟨_, rfl⟩
    | null => simp [groupOk] at hitem
    | bool b => simp [groupOk] at hitem
    | num n => simp [groupOk] at hitem
    | str s => simp [groupOk] at hitem
    | arr xs => simp [groupOk] at hitem

theorem refsMoh_ok (known : List String) :
    ∀ (kvs : List (String × Json)),
      kvs.all (fun kv => fieldOk kv.2) = true →
      ∃ evs, refsMoh known kvs = .ok evs := by
  intro kvs
  induction kvs with
  | nil => intro _; exact ⟨[], rfl⟩
  | cons kv rest ih =>
    intro hall
    rw [List.all_cons, Bool.and_eq_true] at hall
    obtain ⟨hkv, hrest⟩ := hall
    obtain ⟨more, hmore⟩ := ih hrest
    obtain ⟨key, value⟩ := kv
    obtain ⟨o, ho⟩ := knownStr_ok_of_fieldOk _ known hkv
    simp only [refsMoh]
    rw [ho]
    cases o with
    | none => exact ⟨more, hmore⟩
    | some fn =>
      rw [hmore]
      exact ⟨_, rfl⟩

theorem collOk_value (itemOk : Json → Bool) (c : Json) (h : collOk itemOk c = true) :
    ∃ items, pyGet (pyOr c (.obj [])) "value" (.arr []) = .ok (.arr items) ∧
      pyIter (.arr items) = .ok items ∧ items.all itemOk = true := by
  simp only [collOk] at h
  cases hc : pyOr c (.obj []) with
  | obj kvs =>
    rw [hc] at h
    dsimp only at h
    cases hv : (kvs.lookup "value").getD (.arr []) with
    | arr items =>
      rw [hv] at h
      dsimp only at h
      exact ⟨items, by simp [pyGet, hv], rfl, h⟩
    | null => rw [hv] at h; simp at h
    | bool b => rw [hv] at h; simp at h
    | num n => rw [hv] at h; simp at h
    | str s => rw [hv] at h; simp at h
    | obj kvs2 => rw [hv] at h; simp at h
  | null => rw [hc] at h; simp at h
  | bool b => rw [hc] at h; simp at h
  | num n => rw [hc] at h; simp at h
  | str s => rw [hc] at h; simp at h
  | arr xs => rw [hc] at h; simp at h

theorem settingOk_value (c : Json) (known : List String) (h : settingOk c = true) :
    ∃ v o, pyGet (pyOr c (.obj [])) "MusicOnHold" .null = .ok v ∧
      knownStr v known = .ok o := by
  simp only [settingOk] at h
  cases hc : pyOr c (.obj []) with
  | obj kvs =>
    rw [hc] at h
    dsimp only at h
    obtain ⟨o, ho⟩ := knownStr_ok_of_fieldOk _ known h
    exact ⟨_, o, by simp [pyGet], ho⟩
  | null => rw [hc] at h; simp at h
  | bool b => rw [hc] at h; simp at h
  | num n => rw [hc] at h; simp at h
  | str s => rw [hc] at h; simp at h
  | arr xs => rw [hc] at h; simp at h

/-- C3 (amended): for inputs whose only field irregularities are of the
tolerated kinds — filename-bearing fields absent, null or empty, route
sub-records null or absent — the resolver never raises, and every
recorded usage stems from a truthy known filename string, so the
malformed fields contribute no usage entry.  (The original claim also
listed a null `Forwards` list as tolerated; `gather_nullForwards_error`
shows that case raises a TypeError instead.) -/
theorem gather_malformed_tolerated (known : List String)
    (r q g moh conf park : Json)
    (h : inputsOk r q g moh conf park = true) :
    (∃ m, gather_prompt_usages known r q g moh conf park = .ok m) ∧
    ∃ evs, usage_refs known r q g moh conf park = .ok evs ∧
      ∀ e ∈ evs, e.1 ∈ known ∧ e.1 ≠ "" := by
  simp only [inputsOk, Bool.and_eq_true] at h
  obtain ⟨⟨⟨⟨⟨hr, hq⟩, hg⟩, hmoh⟩, hconf⟩, hpark⟩ := h
  obtain ⟨ritems, hrv, hri, hrall⟩ := collOk_value receptionistOk r hr
  obtain ⟨qitems, hqv, hqi, hqall⟩ := collOk_value queueOk q hq
  obtain ⟨gitems, hgv, hgi, hgall⟩ := collOk_value groupOk g hg
  obtain ⟨evR, hevR⟩ := refsReceptionists_ok known ritems hrall
  obtain ⟨evQ, hevQ⟩ := refsQueues_ok known qitems hqall
  obtain ⟨evG, hevG⟩ := refsGroups_ok known gitems hgall
  have hmitems : ∃ mitems, pyItems (pyOr moh (.obj [])) = .ok mitems ∧
      mitems.all (fun kv => fieldOk kv.2) = true := by
    simp only [mohOk] at hmoh
    cases hc : pyOr moh (.obj []) with
    | obj kvs => rw [hc] at hmoh; dsimp only at hmoh; exact ⟨kvs, rfl, hmoh⟩
    | null => rw [hc] at hmoh; simp at hmoh
    | bool b => rw [hc] at hmoh; simp at hmoh
    | num n => rw [hc] at hmoh; simp at hmoh
    | str s => rw [hc] at hmoh; simp at hmoh
    | arr xs => rw [hc] at hmoh; simp at hmoh
  obtain ⟨mitems, hmv, hmall⟩ := hmitems
  obtain ⟨evM, hevM⟩ := refsMoh_ok known mitems hmall
  obtain ⟨cv, co, hcv, hco⟩ := settingOk_value conf known hconf
  obtain ⟨pv, po, hpv, hpo⟩ := settingOk_value park known hpark
  have hrefs : ∃ evs, usage_refs known r q g moh conf park = .ok evs := by
    simp only [usage_refs]
    rw [hrv]
    dsimp only
    rw [hri]
    dsimp only
    rw [hevR]
    dsimp only
    rw [hqv]
    dsimp only
    rw [hqi]
    dsimp only
    rw [hevQ]
    dsimp only
    rw [hgv]
    dsimp only
    rw [hgi]
    dsimp only
    rw [hevG]
    dsimp only
    rw [hmv]
    dsimp only
    rw [hevM]
    dsimp only
    rw [hcv]
    dsimp only
    rw [hco]
    dsimp only
    rw [hpv]
    dsimp only
    rw [hpo]
    exact ⟨_, rfl⟩
  obtain ⟨evs, hevs⟩ := hrefs
  have hgather : gather_prompt_usages known r q g moh conf park =
      .ok ((evs.foldl addRef (known.map (fun fn => (fn, [])))).filter
        (fun kv => !kv.2.isEmpty)) := by
    rw [gather_eq, hevs]
    rfl
  exact ⟨⟨_, hgather⟩, evs, hevs,
    fun e he => usage_refs_keys known r q g moh conf park evs hevs e he⟩

/-! ### Witnesses instantiating the conditional claims -/

/-- Witness for C1 at a concrete input: one receptionist referencing
one of two known filenames. -/
theorem gather_keys_exact_witness :
    ∃ evs, usage_refs ["a.wav", "b.wav"]
        (.obj [("value", .arr [.obj [("Number", .str "1"), ("Name", .str "X"),
          ("PromptFilename", .str "a.wav")]])])
        .null .null .null .null .null = .ok evs ∧
      (∀ kv ∈ [("a.wav", ["Receptionist: 1 X"])],
        kv.1 ∈ ["a.wav", "b.wav"] ∧ kv.2 ≠ []) ∧
      (∀ fn : String, fn ∈ ["a.wav", "b.wav"] →
        ((∃ l, (fn, l) ∈ [("a.wav", ["Receptionist: 1 X"])]) ↔ refTexts evs fn ≠ [])) ∧
      (∀ fn : String, fn ∉ ["a.wav", "b.wav"] →
        ∀ l, (fn, l) ∉ [("a.wav", ["Receptionist: 1 X"])]) :=
  gather_keys_exact ["a.wav", "b.wav"]
    (.obj [("value", .arr [.obj [("Number", .str "1"), ("Name", .str "X"),
      ("PromptFilename", .str "a.wav")]])])
    .null .null .null .null .null
    [("a.wav", ["Receptionist: 1 X"])] rfl

/-- Witness for C2 at a concrete input. -/
theorem gather_list_eq_refs_witness :
    ∃ evs, usage_refs ["a.wav", "b.wav"]
        (.obj [("value", .arr [.obj [("Number", .str "1"), ("Name", .str "X"),
          ("PromptFilename", .str "a.wav")]])])
        .null .null .null .null .null = .ok evs ∧
      (refTexts evs "a.wav" ≠ [] →
        ("a.wav", refTexts evs "a.wav") ∈ [("a.wav", ["Receptionist: 1 X"])]) ∧
      (∀ l, ("a.wav", l) ∈ [("a.wav", ["Receptionist: 1 X"])] →
        l = refTexts evs "a.wav") :=
  gather_list_eq_refs ["a.wav", "b.wav"]
    (.obj [("value", .arr [.obj [("Number", .str "1"), ("Name", .str "X"),
      ("PromptFilename", .str "a.wav")]])])
    .null .null .null .null .null
    [("a.wav", ["Receptionist: 1 X"])] "a.wav" rfl (by simp)

/-- Witness for C5 at a concrete input: a receptionist references the
unknown filename c.wav, which acquires no entry. -/
theorem gather_unknown_ignored_witness :
    (∀ l, ("c.wav", l) ∉ [("a.wav", ["Receptionist: 1 X"])]) ∧
      ∃ evs, usage_refs ["a.wav", "b.wav"]
          (.obj [("value", .arr [
            .obj [("Number", .str "1"), ("Name", .str "X"),
              ("PromptFilename", .str "a.wav")],
            .obj [("Number", .str "2"), ("Name", .str "Y"),
              ("PromptFilename", .str "c.wav")]])])
          .null .null .null .null .null = .ok evs ∧
        ∀ e ∈ evs, e.1 ≠ "c.wav" :=
  gather_unknown_ignored ["a.wav", "b.wav"]
    (.obj [("value", .arr [
      .obj [("Number", .str "1"), ("Name", .str "X"),
        ("PromptFilename", .str "a.wav")],
      .obj [("Number", .str "2"), ("Name", .str "Y"),
        ("PromptFilename", .str "c.wav")]])])
    .null .null .null .null .null
    [("a.wav", ["Receptionist: 1 X"])] "c.wav" rfl (by simp)

/-- Witness for C10 at a concrete input: the empty string is a known
filename and a field value, yet the key of the single returned entry is
not the empty string. -/
theorem gather_no_empty_key_witness :
    (("a.wav", ["Receptionist: 1 X"]) : String × List String).1 ≠ "" :=
  gather_no_empty_key ["", "a.wav"]
    (.obj [("value", .arr [
      .obj [("Number", .str "1"), ("Name", .str "X"),
        ("PromptFilename", .str "a.wav")],
      .obj [("Number", .str "2"), ("Name", .str "Y"),
        ("PromptFilename", .str "")]])])
    .null .null .null .null .null
    [("a.wav", ["Receptionist: 1 X"])] rfl
    ("a.wav", ["Receptionist: 1 X"]) (by simp)

/-- Witness for the amended C3 at a concrete input exercising every
tolerated irregularity: a null direct field, a forward without its data
field, an empty-string file field, a null route, a route with a null
prompt, a null settings value, a null collection and an empty one. -/
theorem gather_malformed_tolerated_witness :
    (∃ m, gather_prompt_usages ["a.wav"]
      (.obj [("value", .arr [.obj [("PromptFilename", Json.null),
        ("Forwards", .arr [.obj []])]])])
      (.obj [("value", .arr [.obj [("IntroFile", .str ""),
        ("BreakRoute", Json.null)]])])
      (.obj [("value", .arr [.obj [("OfficeRoute", .obj [("Prompt", Json.null)])]])])
      (.obj [("MusicOnHold0", Json.null)])
      Json.null
      (.obj []) = .ok m) ∧
    ∃ evs, usage_refs ["a.wav"]
      (.obj [("value", .arr [.obj [("PromptFilename", Json.null),
        ("Forwards", .arr [.obj []])]])])
      (.obj [("value", .arr [.obj [("IntroFile", .str ""),
        ("BreakRoute", Json.null)]])])
      (.obj [("value", .arr [.obj [("OfficeRoute", .obj [("Prompt", Json.null)])]])])
      (.obj [("MusicOnHold0", Json.null)])
      Json.null
      (.obj []) = .ok evs ∧
      ∀ e ∈ evs, e.1 ∈ ["a.wav"] ∧ e.1 ≠ "" :=
  gather_malformed_tolerated ["a.wav"]
    (.obj [("value", .arr [.obj [("PromptFilename", Json.null),
      ("Forwards", .arr [.obj []])]])])
    (.obj [("value", .arr [.obj [("IntroFile", .str ""),
      ("BreakRoute", Json.null)]])])
    (.obj [("value", .arr [.obj [("OfficeRoute", .obj [("Prompt", Json.null)])]])])
    (.obj [("MusicOnHold0", Json.null)])
    Json.null
    (.obj []) rfl

/-! ### Cache short-circuit of `main`

`main` (lines 195-207 of `src/main.py`) and the two report functions it
dispatches to perform file and network I/O; the embedding records the
sequence of external effects each path performs.  `load_json_file`
inside `report_from_output` only reads cache files; `report_from_api`
constructs nothing but API fetches, cache writes and report printing
(`print_call_flow_apps`, lines 108-117, fetches the call-flow apps two
further times). -/

inductive Effect where
  | apiFetch (resource : String)
  | cacheRead (file : String)
  | cacheWrite (file : String)
  | printReport
  | mkClient

/-- Test for a Data Source network call. -/
def Effect.isApiFetch : Effect → Bool
  | .apiFetch _ => true
  | _ => false

/-- Effect trace of `report_from_output` (lines 120-145 of
`src/main.py`): the eight cache documents are loaded in source order,
then the report is printed; no network call occurs. -/
def report_from_output_effects : List Effect :=
  [.cacheRead "custom_prompts.json", .cacheRead "receptionists.json",
   .cacheRead "queues.json", .cacheRead "groups.json",
   .cacheRead "playlists.json", .cacheRead "music_on_hold_settings.json",
   .cacheRead "conference_settings.json", .cacheRead "call_parking_settings.json",
   .printReport]

/-- Effect trace of `report_from_api` (lines 148-192 of `src/main.py`):
nine live fetches in source order, nine cache writes, the printed
report, then the two further call-flow-app fetches of
`print_call_flow_apps`. -/
def report_from_api_effects : List Effect :=
  [.apiFetch "CustomPrompts", .apiFetch "Receptionists", .apiFetch "Queues",
   .apiFetch "Groups", .apiFetch "Playlists", .apiFetch "ConferenceSettings",
   .apiFetch "MusicOnHoldSettings", .apiFetch "CallParkingSettings",
   .apiFetch "CallFlowApps",
   .cacheWrite "custom_prompts.json", .cacheWrite "playlists.json",
   .cacheWrite "receptionists.json", .cacheWrite "queues.json",
   .cacheWrite "groups.json", .cacheWrite "conference_settings.json",
   .cacheWrite "music_on_hold_settings.json", .cacheWrite "call_parking_settings.json",
   .cacheWrite "call_flow_apps.json",
   .printReport,
   .apiFetch "CallFlowApps", .apiFetch "CallFlowApps"]

/-- Dispatch of `main` (lines 195-207 of `src/main.py`) as a function
of the two file-system tests of line 197: when the output directory and
its primary document `custom_prompts.json` both exist, the cached
report path runs; otherwise an API client is constructed and the live
path runs. -/
def main_effects (outputDirExists customPromptsJsonExists : Bool) : List Effect :=
  if outputDirExists && customPromptsJsonExists then report_from_output_effects
  else .mkClient :: report_from_api_effects

/-- C9: when the cache directory and its primary document exist, `main`
takes the cache-report path, whose trace contains no Data Source
network call and no client construction; in the other three cases it
constructs an API client and takes the live path, which does fetch. -/
theorem main_cache_short_circuit :
    main_effects true true = report_from_output_effects
    ∧ (report_from_output_effects.all (fun e => ! e.isApiFetch)) = true
    ∧ (.mkClient : Effect) ∉ report_from_output_effects
    ∧ main_effects false false = .mkClient :: report_from_api_effects
    ∧ main_effects false true = .mkClient :: report_from_api_effects
    ∧ main_effects true false = .mkClient :: report_from_api_effects
    ∧ (report_from_api_effects.any (fun e => e.isApiFetch)) = true := by
  refine ⟨rfl, rfl, ?_, rfl, rfl, rfl, rfl⟩
  intro hmem
  simp [report_from_output_effects] at hmem

/-! ### Relative order of queue-route and music-on-hold references -/

theorem knownStr_str_of_mem (fn : String) (known : List String)
    (hfn : fn ≠ "") (hknown : fn ∈ known) :
    knownStr (.str fn) known = .ok (some fn) := by
  have h1 : fn.isEmpty = false := by
    cases hfe : fn.isEmpty
    · rfl
    · rw [String.isEmpty_iff] at hfe
      exact absurd hfe hfn
  simp [knownStr, truthy, h1, hknown]

theorem refsQueues_mem (known : List String) :
    ∀ (items : List Json) (ev : List Ref), refsQueues known items = .ok ev →
      ∀ item ∈ items, ∃ evRoutes,
        refsRoutes "Queue" known item route_keys = .ok evRoutes ∧
        ∀ e ∈ evRoutes, e ∈ ev := by
  intro items
  induction items with
  | nil => intro ev h item hitem; cases hitem
  | cons item2 rest ih =>
    intro ev h item hitem
    simp only [refsQueues] at h
    cases hf : refsQueueFiles known item2 queue_file_keys with
    | error e => rw [hf] at h; exact absurd h (by simp)
    | ok fromFiles =>
      rw [hf] at h; dsimp only at h
      cases hr : refsRoutes "Queue" known item2 route_keys with
      | error e => rw [hr] at h; exact absurd h (by simp)
      | ok fromRoutes =>
        rw [hr] at h; dsimp only at h
        cases hqq : refsQueues known rest with
        | error e => rw [hqq] at h; exact absurd h (by simp)
        | ok more =>
          rw [hqq] at h; injection h with h; subst h
          cases hitem with
          | head =>
            refine ⟨fromRoutes, hr, fun e he => ?_⟩
            simp only [List.mem_append]
            tauto
          | tail _ hmem =>
            obtain ⟨evRoutes, hrr, hsub⟩ := ih more hqq item hmem
            refine ⟨evRoutes, hrr, fun e he => ?_⟩
            have := hsub e he
            simp only [List.mem_append]
            tauto

theorem refsMoh_mem (known : List String) :
    ∀ (kvs : List (String × Json)) (ev : List Ref), refsMoh known kvs = .ok ev →
      ∀ (key : String) (v : Json), (key, v) ∈ kvs →
        ∀ fn, knownStr v known = .ok (some fn) →
          (fn, "MusicOnHold setting (" ++ key ++ ")") ∈ ev := by
  intro kvs
  induction kvs with
  | nil => intro ev h key v hkv; cases hkv
  | cons kv rest ih =>
    intro ev h key v hkv fn hfn
    obtain ⟨key2, v2⟩ := kv
    simp only [refsMoh] at h
    cases hk : knownStr v2 known with
    | error e => rw [hk] at h; exact absurd h (by simp)
    | ok o =>
      rw [hk] at h
      cases hkv with
      | head =>
        rw [hfn] at hk
        injection hk with hk
        subst hk
        dsimp only at h
        cases hrm : refsMoh known rest with
        | error e => rw [hrm] at h; exact absurd h (by simp)
        | ok more =>
          rw [hrm] at h; injection h with h; subst h
          exact List.mem_cons_self _ _
      | tail _ hmem =>
        cases o with
        | none => exact ih ev h key v hmem fn hfn
        | some fn2 =>
          dsimp only at h
          cases hrm : refsMoh known rest with
          | error e => rw [hrm] at h; exact absurd h (by simp)
          | ok more =>
            rw [hrm] at h; injection h with h; subst h
            exact List.mem_cons_of_mem _ (ih more hrm key v hmem fn hfn)

theorem refsRoutes_mem (label : String) (known : List String)
    (qf rf : List (String × Json)) (rkey fn : String)
    (hroute : qf.lookup rkey = some (.obj rf))
    (hprompt : rf.lookup "Prompt" = some (.str fn))
    (hfn : fn ≠ "") (hknown : fn ∈ known) :
    ∀ (keys : List String) (ev : List Ref),
      refsRoutes label known (.obj qf) keys = .ok ev → rkey ∈ keys →
      (fn, label ++ " route " ++ rkey ++ ": " ++
        (pyStr ((qf.lookup "Number").getD .null) ++ " " ++
         pyStr ((qf.lookup "Name").getD .null))) ∈ ev := by
  have hrf : rf ≠ [] := by
    intro he
    rw [he] at hprompt
    simp at hprompt
  have hor : pyOr (.obj rf) (.obj []) = .obj rf := by
    cases rf with
    | nil => exact absurd rfl hrf
    | cons a as => rfl
  have hks : knownStr (.str fn) known = .ok (some fn) :=
    knownStr_str_of_mem fn known hfn hknown
  intro keys
  induction keys with
  | nil => intro ev h hk; cases hk
  | cons k rest ih =>
    intro ev h hk
    simp only [refsRoutes] at h
    rcases List.mem_cons.mp hk with heq | hmem
    · rw [← heq] at h
      have hpg : pyGet (.obj qf) rkey (.obj []) = .ok (.obj rf) := by
        simp [pyGet, hroute]
      rw [hpg] at h; dsimp only at h
      rw [hor] at h
      have hpp : pyGet (.obj rf) "Prompt" .null = .ok (.str fn) := by
        simp [pyGet, hprompt]
      rw [hpp] at h; dsimp only at h
      rw [hks] at h; dsimp only at h
      simp only [numberName, pyGet] at h
      cases hrm : refsRoutes label known (.obj qf) rest with
      | error e => rw [hrm] at h; exact absurd h (by simp)
      | ok more =>
        rw [hrm] at h; injection h with h; subst h
        exact List.mem_cons_self _ _
    · cases hpg : pyGet (.obj qf) k (.obj []) with
      | error e => rw [hpg] at h; exact absurd h (by simp)
      | ok route0 =>
        rw [hpg] at h; dsimp only at h
        cases hpp : pyGet (pyOr route0 (.obj [])) "Prompt" .null with
        | error e => rw [hpp] at h; exact absurd h (by simp)
        | ok prompt =>
          rw [hpp] at h; dsimp only at h
          cases hkk : knownStr prompt known with
          | error e => rw [hkk] at h; exact absurd h (by simp)
          | ok o =>
            rw [hkk] at h
            cases o with
            | none => exact ih ev h hmem
            | some fn2 =>
              dsimp only at h
              cases hnn : numberName (.obj qf) with
              | error e => rw [hnn] at h; exact absurd h (by simp)
              | ok nn =>
                rw [hnn] at h; dsimp only at h
                cases hrm : refsRoutes label known (.obj qf) rest with
                | error e => rw [hrm] at h; exact absurd h (by simp)
                | ok more =>
                  rw [hrm] at h; injection h with h; subst h
                  exact List.mem_cons_of_mem _ (ih more hrm hmem)

theorem usage_refs_decomp (known : List String) (r q g moh conf park : Json)
    (evs : List Ref) (h : usage_refs known r q g moh conf park = .ok evs) :
    ∃ qvalue qitems evQ mitems evM evR evG evC evP,
      pyGet (pyOr q (.obj [])) "value" (.arr []) = .ok qvalue ∧
      pyIter qvalue = .ok qitems ∧
      refsQueues known qitems = .ok evQ ∧
      pyItems (pyOr moh (.obj [])) = .ok mitems ∧
      refsMoh known mitems = .ok evM ∧
      evs = evR ++ evQ ++ evG ++ evM ++ evC ++ evP := by
  simp only [usage_refs] at h
  cases h1 : pyGet (pyOr r (.obj [])) "value" (.arr []) with
  | error e => rw [h1] at h; exact absurd h (by simp)
  | ok rvalue =>
    rw [h1] at h; dsimp only at h
    cases h2 : pyIter rvalue with
    | error e => rw [h2] at h; exact absurd h (by simp)
    | ok ritems =>
      rw [h2] at h; dsimp only at h
      cases h3 : refsReceptionists known ritems with
      | error e => rw [h3] at h; exact absurd h (by simp)
      | ok evR =>
        rw [h3] at h; dsimp only at h
        cases h4 : pyGet (pyOr q (.obj [])) "value" (.arr []) with
        | error e => rw [h4] at h; exact absurd h (by simp)
        | ok qvalue =>
          rw [h4] at h; dsimp only at h
          cases h5 : pyIter qvalue with
          | error e => rw [h5] at h; exact absurd h (by simp)
          | ok qitems =>
            rw [h5] at h; dsimp only at h
            cases h6 : refsQueues known qitems with
            | error e => rw [h6] at h; exact absurd h (by simp)
            | ok evQ =>
              rw [h6] at h; dsimp only at h
              cases h7 : pyGet (pyOr g (.obj [])) "value" (.arr []) with
              | error e => rw [h7] at h; exact absurd h (by simp)
              | ok gvalue =>
                rw [h7] at h; dsimp only at h
                cases h8 : pyIter gvalue with
                | error e => rw [h8] at h; exact absurd h (by simp)
                | ok gitems =>
                  rw [h8] at h; dsimp only at h
                  cases h9 : refsGroups known gitems with
                  | error e => rw [h9] at h; exact absurd h (by simp)
                  | ok evG =>
                    rw [h9] at h; dsimp only at h
                    cases h10 : pyItems (pyOr moh (.obj [])) with
                    | error e => rw [h10] at h; exact absurd h (by simp)
                    | ok mitems =>
                      rw [h10] at h; dsimp only at h
                      cases h11 : refsMoh known mitems with
                      | error e => rw [h11] at h; exact absurd h (by simp)
                      | ok evM =>
                        rw [h11] at h; dsimp only at h
                        cases h12 : pyGet (pyOr conf (.obj [])) "MusicOnHold" .null with
                        | error e => rw [h12] at h; exact absurd h (by simp)
                        | ok conf_moh =>
                          rw [h12] at h; dsimp only at h
                          cases h13 : knownStr conf_moh known with
                          | error e => rw [h13] at h; exact absurd h (by simp)
                          | ok o1 =>
                            rw [h13] at h; dsimp only at h
                            cases h14 : pyGet (pyOr park (.obj [])) "MusicOnHold" .null with
                            | error e => rw [h14] at h; exact absurd h (by simp)
                            | ok cps_moh =>
                              rw [h14] at h; dsimp only at h
                              cases h15 : knownStr cps_moh known with
                              | error e => rw [h15] at h; exact absurd h (by simp)
                              | ok o2 =>
                                rw [h15] at h; injection h with h
                                exact ⟨qvalue, qitems, evQ, mitems, evM, evR,
                                  evG, _, _, rfl, h5, h6, rfl, h11, h.symm⟩

/-- C7: whenever some queue has break-route prompt `hold.wav` and some
music-on-hold settings key also carries `hold.wav`, with `hold.wav`
known, a successful run lists both descriptions under `hold.wav`, the
queue-route one before the music-on-hold one (queues are scanned before
the music-on-hold settings). -/
theorem gather_queue_route_before_moh
    (known : List String) (r g conf park : Json)
    (qs : List Json) (qf rf mohkvs : List (String × Json)) (mohkey : String)
    (m : UsageMap)
    (hq : Json.obj qf ∈ qs)
    (hroute : qf.lookup "BreakRoute" = some (.obj rf))
    (hprompt : rf.lookup "Prompt" = some (.str "hold.wav"))
    (hmoh : (mohkey, Json.str "hold.wav") ∈ mohkvs)
    (hknown : "hold.wav" ∈ known)
    (h : gather_prompt_usages known r (.obj [("value", .arr qs)]) g
        (.obj mohkvs) conf park = .ok m) :
    ∃ l, ("hold.wav", l) ∈ m ∧
      [("Queue route BreakRoute: " ++
          (pyStr ((qf.lookup "Number").getD .null) ++ " " ++
           pyStr ((qf.lookup "Name").getD .null))),
       ("MusicOnHold setting (" ++ mohkey ++ ")")].Sublist l := by
  obtain ⟨evs, hu, hm⟩ :=
    gather_ok_char known r (.obj [("value", .arr qs)]) g (.obj mohkvs) conf park m h
  obtain ⟨qvalue, qitems, evQ, mitems, evM, evR, evG, evC, evP,
    hqv, hqi, hevQ, hmv, hevM, hevs⟩ :=
    usage_refs_decomp known r (.obj [("value", .arr qs)]) g (.obj mohkvs) conf park evs hu
  have hqv2 : pyGet (pyOr (.obj [("value", .arr qs)]) (.obj [])) "value" (.arr [])
      = .ok (.arr qs) := rfl
  have hqe : qvalue = .arr qs := by
    have := hqv.symm.trans hqv2
    injection this
  rw [hqe] at hqi
  have hqe2 : qitems = qs := by
    have := hqi.symm.trans (rfl : pyIter (.arr qs) = .ok qs)
    injection this
  rw [hqe2] at hevQ
  have hmv2 : pyItems (pyOr (.obj mohkvs) (.obj [])) = .ok mohkvs := by
    cases mohkvs with
    | nil => rfl
    | cons a as => rfl
  have hme : mitems = mohkvs := by
    have := hmv.symm.trans hmv2
    injection this
  rw [hme] at hevM
  obtain ⟨evRoutes, hrr, hsubQ⟩ := refsQueues_mem known qs evQ hevQ (.obj qf) hq
  have he1 : ("hold.wav", "Queue route BreakRoute: " ++
      (pyStr ((qf.lookup "Number").getD .null) ++ " " ++
       pyStr ((qf.lookup "Name").getD .null))) ∈ evRoutes :=
    refsRoutes_mem "Queue" known qf rf "BreakRoute" "hold.wav"
      hroute hprompt (by decide) hknown route_keys evRoutes hrr (by simp [route_keys])
  have he1Q := hsubQ _ he1
  have he2 : ("hold.wav", "MusicOnHold setting (" ++ mohkey ++ ")") ∈ evM :=
    refsMoh_mem known mohkvs evM hevM mohkey (.str "hold.wav") hmoh "hold.wav"
      (knownStr_str_of_mem "hold.wav" known (by decide) hknown)
  subst hevs
  set e1 : Ref := ("hold.wav", "Queue route BreakRoute: " ++
      (pyStr ((qf.lookup "Number").getD .null) ++ " " ++
       pyStr ((qf.lookup "Name").getD .null))) with he1def
  set e2 : Ref := ("hold.wav", "MusicOnHold setting (" ++ mohkey ++ ")") with he2def
  have s1 : [e1].Sublist evQ := List.singleton_sublist.mpr he1Q
  have s2 : [e2].Sublist evM := List.singleton_sublist.mpr he2
  have s3 : [e2].Sublist (evG ++ evM) :=
    s2.trans (List.sublist_append_right evG evM)
  have s4 : ([e1] ++ [e2]).Sublist (evQ ++ (evG ++ evM)) := List.Sublist.append s1 s3
  have s5 : (evQ ++ (evG ++ evM)).Sublist ((evQ ++ (evG ++ evM)) ++ (evC ++ evP)) :=
    List.sublist_append_left _ _
  have s6 : ((evQ ++ (evG ++ evM)) ++ (evC ++ evP)).Sublist
      (evR ++ ((evQ ++ (evG ++ evM)) ++ (evC ++ evP))) :=
    List.sublist_append_right _ _
  have s7 : ([e1] ++ [e2]).Sublist (evR ++ ((evQ ++ (evG ++ evM)) ++ (evC ++ evP))) :=
    (s4.trans s5).trans s6
  have heq : evR ++ ((evQ ++ (evG ++ evM)) ++ (evC ++ evP))
      = evR ++ evQ ++ evG ++ evM ++ evC ++ evP := by
    simp [List.append_assoc]
  rw [heq] at s7
  have s8 := List.Sublist.filter (fun e => e.1 = "hold.wav") s7
  have hfe : ([e1] ++ [e2]).filter (fun e => e.1 = "hold.wav") = [e1] ++ [e2] := by
    simp [he1def, he2def]
  rw [hfe] at s8
  have s9 := List.Sublist.map Prod.snd s8
  have hne : refTexts (evR ++ evQ ++ evG ++ evM ++ evC ++ evP) "hold.wav" ≠ [] := by
    intro h0
    rw [refTexts] at h0
    rw [h0] at s9
    have := List.sublist_nil.mp s9
    simp at this
  subst hm
  refine ⟨refTexts (evR ++ evQ ++ evG ++ evM ++ evC ++ evP) "hold.wav", ?_, s9⟩
  rw [List.mem_filter]
  refine ⟨List.mem_map.mpr ⟨"hold.wav", hknown, rfl⟩, by simpa using hne⟩

/-- Witness for C7 at a concrete input: one queue whose break route
prompts with hold.wav and one music-on-hold key carrying hold.wav. -/
theorem gather_queue_route_before_moh_witness :
    ∃ l, ("hold.wav", l) ∈
        [("hold.wav", ["Queue route BreakRoute: 800 S",
          "MusicOnHold setting (MusicOnHold3)"])] ∧
      [("Queue route BreakRoute: " ++
          (pyStr (((([("Number", Json.str "800"), ("Name", Json.str "S"),
            ("BreakRoute", Json.obj [("Prompt", Json.str "hold.wav")])] :
            List (String × Json)).lookup "Number")).getD .null) ++ " " ++
           pyStr (((([("Number", Json.str "800"), ("Name", Json.str "S"),
            ("BreakRoute", Json.obj [("Prompt", Json.str "hold.wav")])] :
            List (String × Json)).lookup "Name")).getD .null))),
       ("MusicOnHold setting (" ++ "MusicOnHold3" ++ ")")].Sublist l :=
  gather_queue_route_before_moh ["hold.wav"] .null .null .null .null
    [.obj [("Number", .str "800"), ("Name", .str "S"),
      ("BreakRoute", .obj [("Prompt", .str "hold.wav")])]]
    [("Number", .str "800"), ("Name", .str "S"),
      ("BreakRoute", .obj [("Prompt", .str "hold.wav")])]
    [("Prompt", .str "hold.wav")]
    [("MusicOnHold3", .str "hold.wav")]
    "MusicOnHold3"
    [("hold.wav", ["Queue route BreakRoute: 800 S",
      "MusicOnHold setting (MusicOnHold3)"])]
    (by simp) rfl rfl (by simp) (by simp) rfl

end PromptFinder
